import Mathlib

/-!
Verification of the hcrm reconcilers (HcloudNetwork and HcloudDnsZone
controllers) against their natural-language specification.

The controllers are shallowly embedded: every external effect (the
declarative-state store's status/record writes, every provider call) is
driven by an explicit environment of total functions, and each pass
records the calls it issues in a trace. The embedding follows
`internal/controller/hcloudnetwork_controller.go` and
`internal/controller/hclouddnszone_controller.go` line by line; Go maps
are assoc lists with lookup semantics, a nil map is `none`, and
`equality.Semantic.DeepEqual` on maps is key/value equality with nil
distinguished from empty.
-/

namespace Hcrm

/-- A Go `map[string]string`, as an association list (keys unique). -/
abbrev Labels := List (String × String)

/-- Map lookup on an association list. -/
def lookupKey (l : Labels) (k : String) : Option String :=
  match l with
  | [] => none
  | kv :: rest => if kv.1 = k then some kv.2 else lookupKey rest k

/-- `reflect.DeepEqual` on two (non-nil) Go string maps: the same keys map
to the same values on both sides. -/
def mapBeq (a b : Labels) : Bool :=
  a.all (fun kv => lookupKey b kv.1 == some kv.2) &&
  b.all (fun kv => lookupKey a kv.1 == some kv.2)

/-- `equality.Semantic.DeepEqual` on two Go maps that may be nil:
a nil map and a non-nil map are never equal, two non-nil maps are
compared entrywise. -/
def optMapBeq : Option Labels → Option Labels → Bool
  | none, none => true
  | some a, some b => mapBeq a b
  | _, _ => false

/-- Go `m[k]` on a possibly-nil `map[string]string`: the zero value `""`
when the map is nil or the key is absent. -/
def annGet (m : Option Labels) (k : String) : String :=
  match m with
  | none => ""
  | some l => (lookupKey l k).getD ""

/-- Go `m[k] = v` on a non-nil map. -/
def mapSet (l : Labels) (k v : String) : Labels :=
  if lookupKey l k = none then l ++ [(k, v)]
  else l.map (fun kv => if kv.1 = k then (k, v) else kv)

/-- `metav1.Condition` (LastTransitionTime is not modelled). -/
structure Condition where
  type : String
  status : Bool
  reason : String
  message : String
  observedGeneration : Int
  deriving DecidableEq, Repr

/-- `meta.SetStatusCondition`: replace the condition of the same type in
place, preserving the rest of the list and its order; append if absent. -/
def setStatusCondition (cs : List Condition) (c : Condition) : List Condition :=
  match cs with
  | [] => [c]
  | c0 :: rest =>
    if c0.type = c.type then c :: rest else c0 :: setStatusCondition rest c

/-- `meta.FindStatusCondition`. -/
def findCondition (cs : List Condition) (ty : String) : Option Condition :=
  cs.find? (fun c => c.type = ty)

/-- `finalizerName` from the controller package. -/
def finalizerName : String := "hcloud.bunskin.com/finalizer"

/-- `syncPolicy`, the sync-policy annotation key. -/
def syncPolicy : String := "hcloud.bunskin.com/sync-policy"

/-- `HcloudNetworkSpec`. -/
structure NetworkSpec where
  name : String
  ipRange : String
  labels : Option Labels
  deriving DecidableEq, Repr

/-- `HcloudNetworkStatus` (fields the controller writes). -/
structure NetworkStatus where
  networkId : Int
  ipRange : String
  labels : Option Labels
  observedGeneration : Int
  conditions : List Condition
  deriving DecidableEq, Repr

/-- An `HcloudNetwork` record as the reconciler sees it: object metadata
(deletion timestamp presence, generation, annotations, finalizers) plus
spec and status. -/
structure HcloudNetwork where
  deletionTimestamp : Bool
  generation : Int
  annots : Option Labels
  finalizers : List String
  spec : NetworkSpec
  status : NetworkStatus
  deriving DecidableEq, Repr

/-- The external `hcloud.Network`; `ipRange` holds the canonical printed
form `IPRange.String()`. -/
structure Network where
  id : Int
  name : String
  ipRange : String
  labels : Option Labels
  deriving DecidableEq, Repr

/-- `controllerutil.ContainsFinalizer`. -/
def containsFinalizer (r : HcloudNetwork) : Bool :=
  r.finalizers.contains finalizerName

/-- Replace the record's `Available` condition (the only type the
controller touches) via `meta.SetStatusCondition`. -/
def setAvail (r : HcloudNetwork) (c : Condition) : HcloudNetwork :=
  { r with status := { r.status with conditions := setStatusCondition r.status.conditions c } }

/-- One provider / store call issued by the network reconciler. -/
inductive Call where
  | getById (id : Int)
  | getByName (name : String)
  | createNetwork (name ipRange : String) (labels : Option Labels)
  | updateNetworkLabels (id : Int) (labels : Option Labels)
  | updateNetworkCidr (id : Int) (cidr : String)
  | deleteNetwork (id : Int)
  | statusUpdate (st : NetworkStatus)
  | recordUpdate (finalizers : List String) (annots : Option Labels)
  deriving DecidableEq, Repr

/-- Environment answering the network reconciler's external calls.
Provider answers are functions of the arguments; store writes succeed or
fail by their index in the pass (`statusErr n` is whether the `n`-th
status write fails, likewise `updateErr` for record writes). -/
structure Env where
  getById : Int → Except String (Option Network)
  getByName : String → Except String (Option Network)
  createNetwork : String → String → Option Labels → Except String Network
  updateNetworkLabels : Network → Option Labels → Except String Network
  updateNetworkCidr : Network → String → Except String Network
  deleteNetwork : Network → Option String
  statusErr : Nat → Bool
  updateErr : Nat → Bool

/-- Error token for a failed `r.Status().Update`. -/
def statusUpdateErr : String := "status update failed"

/-- Error token for a failed `r.Update`. -/
def recordUpdateErr : String := "record update failed"

/-- Outcome of one reconciliation pass: the in-memory record at return,
the returned error, and the calls issued. -/
structure ReconcileResult where
  record : HcloudNetwork
  err : Option String
  trace : List Call
  deriving DecidableEq, Repr

/-- The `Available=False/Progressing` condition set at the top of every pass. -/
def progressingCond (g : Int) : Condition :=
  ⟨"Available", false, "Progressing", "HcloudNetwork resource reconciliation in progress", g⟩

/-- The `Available=False/Deleting` condition of the deletion path. -/
def deletingCond (g : Int) : Condition :=
  ⟨"Available", false, "Deleting", "HcloudNetwork resource is being deleted", g⟩

/-- `Available=False/DeletionFailed`. -/
def deletionFailedCond (g : Int) (msg : String) : Condition :=
  ⟨"Available", false, "DeletionFailed", msg, g⟩

/-- `Available=False/Failed`. -/
def failedCond (g : Int) (msg : String) : Condition :=
  ⟨"Available", false, "Failed", msg, g⟩

/-- `Available=True/Ready`. -/
def readyCond (g : Int) (msg : String) : Condition :=
  ⟨"Available", true, "Ready", msg, g⟩

/-- Message of a failed lookup by name. -/
def lookupFailMsg (e : String) : String :=
  s!"Failed to get network from Hetzner Cloud by name: {e}"

/-- Message of a failed label or CIDR update. -/
def updateFailMsg (e : String) : String :=
  s!"Failed to update network in Hetzner Cloud: {e}"

/-- Message of a failed create. -/
def createFailMsg (e : String) : String :=
  s!"Failed to create network in Hetzner Cloud: {e}"

/-- `Ready` message of the create path. -/
def createdMsg (id : Int) : String :=
  s!"Network created in Hetzner Cloud with ID: {id}"

/-- Message of the read-only-and-missing terminal state. -/
def readOnlyMissingMsg : String :=
  "Network not found in Hetzner Cloud and sync policy is read-only"

/-- `Ready` message of the adopted-network path. -/
def readyMsg (id : Int) : String := s!"Network ID {id} reconciled successfully"

/-- Deletion path, provider part (controller lines 107-158): when
`status.networkId` is set and the policy is not `orphan`, fetch by id and
delete when present; a provider failure sets `DeletionFailed`, persists
(the persist result is only logged) and returns the error. -/
def networkDeletionProvider (env : Env) (r : HcloudNetwork) :
    Except ReconcileResult (HcloudNetwork × List Call) :=
  if r.status.networkId ≠ 0 ∧ annGet r.annots syncPolicy ≠ "orphan" then
    match env.getById r.status.networkId with
    | .error e =>
      let r := setAvail r (deletionFailedCond r.generation s!"Failed to get network for deletion: {e}")
      .error ⟨r, some e, [Call.getById r.status.networkId, Call.statusUpdate r.status]⟩
    | .ok none => .ok (r, [Call.getById r.status.networkId])
    | .ok (some net) =>
      match env.deleteNetwork net with
      | some e =>
        let r := setAvail r (deletionFailedCond r.generation s!"Failed to delete network from Hetzner Cloud: {e}")
        .error ⟨r, some e,
          [Call.getById r.status.networkId, Call.deleteNetwork net.id, Call.statusUpdate r.status]⟩
      | none => .ok (r, [Call.getById r.status.networkId, Call.deleteNetwork net.id])
  else .ok (r, [])

/-- Deletion path (controller lines 91-169): persist the `Deleting`
condition, then, only when the finalizer is present, run the provider
part, remove the finalizer and persist the record. -/
def networkDeletionPath (env : Env) (r : HcloudNetwork) : ReconcileResult :=
  let r := setAvail r (deletingCond r.generation)
  let t := [Call.statusUpdate r.status]
  if env.statusErr 1 then ⟨r, some statusUpdateErr, t⟩
  else if containsFinalizer r then
    match networkDeletionProvider env r with
    | .error res => { res with trace := t ++ res.trace }
    | .ok (r, t2) =>
      let r := { r with finalizers := r.finalizers.filter (fun f => f ≠ finalizerName) }
      let t := t ++ t2 ++ [Call.recordUpdate r.finalizers r.annots]
      if env.updateErr 0 then ⟨r, some recordUpdateErr, t⟩
      else ⟨r, none, t⟩
  else ⟨r, none, t⟩

/-- Controller lines 171-184: default the sync-policy annotation to
`manage` when absent and persist the record. Returns the number of record
writes performed, for indexing later writes. -/
def annotationPhase (env : Env) (r : HcloudNetwork) :
    Except ReconcileResult (HcloudNetwork × List Call × Nat) :=
  if annGet r.annots syncPolicy = "" then
    let r := { r with annots := some (mapSet (r.annots.getD []) syncPolicy "manage") }
    if env.updateErr 0 then
      .error ⟨r, some recordUpdateErr, [Call.recordUpdate r.finalizers r.annots]⟩
    else .ok (r, [Call.recordUpdate r.finalizers r.annots], 1)
  else .ok (r, [], 0)

/-- Controller lines 186-194: add the finalizer when absent and the policy
is not `read-only`, and persist the record. -/
def finalizerPhase (env : Env) (r : HcloudNetwork) (n : Nat) :
    Except ReconcileResult (HcloudNetwork × List Call) :=
  if ¬ containsFinalizer r ∧ annGet r.annots syncPolicy ≠ "read-only" then
    let r := { r with finalizers := r.finalizers ++ [finalizerName] }
    if env.updateErr n then
      .error ⟨r, some recordUpdateErr, [Call.recordUpdate r.finalizers r.annots]⟩
    else .ok (r, [Call.recordUpdate r.finalizers r.annots])
  else .ok (r, [])

/-- Controller lines 224-227: CIDR drift, a plain string comparison of the
desired CIDR against the observed network's canonical printed form. -/
def needsCidrUpdate (spec : NetworkSpec) (net : Network) : Bool :=
  spec.ipRange != net.ipRange

/-- Controller lines 228-231: label drift; nil desired labels never drift,
otherwise semantic map equality against the observed labels. -/
def needsLabelsUpdate (spec : NetworkSpec) (net : Network) : Bool :=
  spec.labels.isSome && !(optMapBeq spec.labels net.labels)

/-- Controller lines 282-300 (and 325-342): mirror the external network
into status, set `Available=True/Ready`, set `observedGeneration`, and
persist. -/
def networkMirrorSuccess (env : Env) (r : HcloudNetwork) (net : Network)
    (t : List Call) (msg : String) : ReconcileResult :=
  let st := { r.status with networkId := net.id, ipRange := net.ipRange, labels := net.labels }
  let st := { st with conditions := setStatusCondition st.conditions (readyCond r.generation msg) }
  let st := { st with observedGeneration := r.generation }
  let r := { r with status := st }
  let t := t ++ [Call.statusUpdate r.status]
  if env.statusErr 1 then ⟨r, some statusUpdateErr, t⟩ else ⟨r, none, t⟩

/-- Controller lines 233-252: the label-update step of the adopted-network
path; `doIt` is the precomputed drift flag. -/
def labelsStep (env : Env) (r : HcloudNetwork) (net : Network) (doIt : Bool) :
    Except ReconcileResult (Network × List Call) :=
  if doIt then
    match env.updateNetworkLabels net r.spec.labels with
    | .error e =>
      let r := setAvail r (failedCond r.generation (updateFailMsg e))
      .error ⟨r, some e, [Call.updateNetworkLabels net.id r.spec.labels, Call.statusUpdate r.status]⟩
    | .ok net2 => .ok (net2, [Call.updateNetworkLabels net.id r.spec.labels])
  else .ok (net, [])

/-- Controller lines 253-274: the CIDR-update step of the adopted-network
path, applied to the (possibly label-updated) network. -/
def cidrStep (env : Env) (r : HcloudNetwork) (net : Network) (doIt : Bool) :
    Except ReconcileResult (Network × List Call) :=
  if doIt then
    match env.updateNetworkCidr net r.spec.ipRange with
    | .error e =>
      let r := setAvail r (failedCond r.generation (updateFailMsg e))
      .error ⟨r, some e, [Call.updateNetworkCidr net.id r.spec.ipRange, Call.statusUpdate r.status]⟩
    | .ok net3 => .ok (net3, [Call.updateNetworkCidr net.id r.spec.ipRange])
  else .ok (net, [])

/-- Controller lines 216-301: the adopted-network path. Both drift flags
are computed first; the label update runs before the CIDR update; a failed
update sets `Failed`, persists and returns the error; success mirrors the
final network into status. -/
def networkFoundPath (env : Env) (r : HcloudNetwork) (net : Network) : ReconcileResult :=
  if annGet r.annots syncPolicy ≠ "read-only" then
    match labelsStep env r net (needsLabelsUpdate r.spec net) with
    | .error res => res
    | .ok (net2, t1) =>
      match cidrStep env r net2 (needsCidrUpdate r.spec net) with
      | .error res => { res with trace := t1 ++ res.trace }
      | .ok (net3, t2) =>
        networkMirrorSuccess env r net3 (t1 ++ t2) (readyMsg net3.id)
  else networkMirrorSuccess env r net [] (readyMsg net.id)

/-- Controller lines 302-342: the create path. -/
def networkCreatePath (env : Env) (r : HcloudNetwork) : ReconcileResult :=
  match env.createNetwork r.spec.name r.spec.ipRange r.spec.labels with
  | .error e =>
    let r := setAvail r (failedCond r.generation (createFailMsg e))
    ⟨r, some e, [Call.createNetwork r.spec.name r.spec.ipRange r.spec.labels, Call.statusUpdate r.status]⟩
  | .ok net =>
    networkMirrorSuccess env r net [Call.createNetwork r.spec.name r.spec.ipRange r.spec.labels]
      (createdMsg net.id)

/-- Controller lines 343-357: the network is absent and the policy is
`read-only`: set `Available=False/Failed`, persist, return success. -/
def networkReadOnlyMissing (env : Env) (r : HcloudNetwork) : ReconcileResult :=
  let r := setAvail r (failedCond r.generation readOnlyMissingMsg)
  let t := [Call.statusUpdate r.status]
  if env.statusErr 1 then ⟨r, some statusUpdateErr, t⟩ else ⟨r, none, t⟩

/-- Controller lines 196-357: look the network up by the spec name and
branch: adopt-and-update when found; create when absent and the policy
permits; terminal `Failed` state when absent under `read-only`. -/
def networkLookupPath (env : Env) (r : HcloudNetwork) : ReconcileResult :=
  match env.getByName r.spec.name with
  | .error e =>
    let r2 := setAvail r (failedCond r.generation (lookupFailMsg e))
    ⟨r2, some e, [Call.getByName r.spec.name, Call.statusUpdate r2.status]⟩
  | .ok (some net) =>
    let res := networkFoundPath env r net
    { res with trace := Call.getByName r.spec.name :: res.trace }
  | .ok none =>
    if annGet r.annots syncPolicy ≠ "read-only" then
      let res := networkCreatePath env r
      { res with trace := Call.getByName r.spec.name :: res.trace }
    else
      let res := networkReadOnlyMissing env r
      { res with trace := Call.getByName r.spec.name :: res.trace }

/-- Controller lines 171-357: the live (non-deletion) path. -/
def networkLivePath (env : Env) (r : HcloudNetwork) : ReconcileResult :=
  match annotationPhase env r with
  | .error res => res
  | .ok (r, t, n) =>
    match finalizerPhase env r n with
    | .error res => { res with trace := t ++ res.trace }
    | .ok (r, t2) =>
      let res := networkLookupPath env r
      { res with trace := t ++ t2 ++ res.trace }

/-- `HcloudNetworkReconciler.Reconcile` (the record has been loaded): set
and persist the `Progressing` condition, then branch on the deletion
timestamp. -/
def networkReconcile (env : Env) (r0 : HcloudNetwork) : ReconcileResult :=
  let r := setAvail r0 (progressingCond r0.generation)
  let t := [Call.statusUpdate r.status]
  if env.statusErr 0 then ⟨r, some statusUpdateErr, t⟩
  else if r.deletionTimestamp then
    let res := networkDeletionPath env r
    { res with trace := t ++ res.trace }
  else
    let res := networkLivePath env r
    { res with trace := t ++ res.trace }

/-- Split a character list on a separator character. -/
def splitOnChar (c : Char) (l : List Char) : List (List Char) :=
  match l with
  | [] => [[]]
  | x :: xs =>
    let r := splitOnChar c xs
    if x = c then [] :: r
    else
      match r with
      | [] => [[x]]
      | y :: ys => (x :: y) :: ys

/-- A decimal field as accepted by Go's `net.ParseCIDR`: one to three
digits, no leading zero, value at most 255. -/
def parseByteChars (s : List Char) : Option Nat :=
  if s.length = 0 ∨ s.length > 3 then none
  else if ¬ s.all Char.isDigit then none
  else if s.length > 1 ∧ s.headD '0' = '0' then none
  else
    let n := s.foldl (fun a c => a * 10 + (c.toNat - 48)) 0
    if n ≤ 255 then some n else none

/-- Modelled from the spec: the "canonical network value" an IPv4 CIDR
string denotes — parse as `net.ParseCIDR` does, mask the address with the
prefix mask, and print the canonical `IPNet.String()` form. This is a
spec-side definition used only to state claims about canonical-value
comparison; the controller itself never canonicalises. -/
def canonicalCIDR (s : String) : Option String :=
  match splitOnChar '/' s.toList with
  | [ip, m] =>
    match splitOnChar '.' ip with
    | [a, b, c, d] =>
      match parseByteChars a, parseByteChars b, parseByteChars c, parseByteChars d,
            parseByteChars m with
      | some a, some b, some c, some d, some m =>
        if m ≤ 32 then
          let addr := ((a * 256 + b) * 256 + c) * 256 + d
          let mask := 2 ^ 32 - 2 ^ (32 - m)
          let net := addr.land mask
          let o1 := net / 2 ^ 24 % 256
          let o2 := net / 2 ^ 16 % 256
          let o3 := net / 2 ^ 8 % 256
          let o4 := net % 256
          some s!"{o1}.{o2}.{o3}.{o4}/{m}"
        else none
      | _, _, _, _, _ => none
    | _ => none
  | _ => none

/-- `HcloudDnsZoneSpec`. -/
structure DnsZoneSpec where
  name : String
  mode : String
  ttl : Option Int
  labels : Option Labels
  deriving DecidableEq, Repr

/-- `HcloudDnsZoneStatus`. -/
structure DnsZoneStatus where
  zoneId : Int
  mode : String
  ttl : Int
  labels : Option Labels
  observedGeneration : Int
  conditions : List Condition
  deriving DecidableEq, Repr

/-- An `HcloudDnsZone` record as the reconciler sees it. -/
structure HcloudDnsZone where
  deletionTimestamp : Bool
  generation : Int
  annots : Option Labels
  finalizers : List String
  spec : DnsZoneSpec
  status : DnsZoneStatus
  deriving DecidableEq, Repr

/-- The external `hcloud.Zone`. -/
structure Zone where
  id : Int
  name : String
  deriving DecidableEq, Repr

/-- One provider / store call issued by the DNS-zone reconciler. The
constructors are exactly the calls occurring in
`hclouddnszone_controller.go`; its live path issues no provider call, so
no lookup-by-name or create constructor is needed. -/
inductive DnsCall where
  | getZoneById (id : Int)
  | deleteZone (id : Int)
  | statusUpdate (st : DnsZoneStatus)
  | recordUpdate (finalizers : List String) (annots : Option Labels)
  deriving DecidableEq, Repr

/-- Environment answering the DNS-zone reconciler's external calls. Only
the calls the controller can issue are answered. -/
structure DnsEnv where
  getZoneById : Int → Except String (Option Zone)
  deleteZone : Zone → Option String
  statusErr : Nat → Bool
  updateErr : Nat → Bool

/-- Outcome of one DNS-zone reconciliation pass. -/
structure DnsReconcileResult where
  record : HcloudDnsZone
  err : Option String
  trace : List DnsCall
  deriving DecidableEq, Repr

/-- `controllerutil.ContainsFinalizer` on a DNS-zone record. -/
def dnsContainsFinalizer (r : HcloudDnsZone) : Bool :=
  r.finalizers.contains finalizerName

/-- Replace the DNS-zone record's `Available` condition. -/
def dnsSetAvail (r : HcloudDnsZone) (c : Condition) : HcloudDnsZone :=
  { r with status := { r.status with conditions := setStatusCondition r.status.conditions c } }

/-- DNS-zone deletion path, provider part (controller lines 98-149). -/
def dnsDeletionProvider (env : DnsEnv) (r : HcloudDnsZone) :
    Except DnsReconcileResult (HcloudDnsZone × List DnsCall) :=
  if r.status.zoneId ≠ 0 ∧ annGet r.annots syncPolicy ≠ "orphan" then
    match env.getZoneById r.status.zoneId with
    | .error e =>
      let r := dnsSetAvail r (deletionFailedCond r.generation s!"Failed to get network for deletion: {e}")
      .error ⟨r, some e, [DnsCall.getZoneById r.status.zoneId, DnsCall.statusUpdate r.status]⟩
    | .ok none => .ok (r, [DnsCall.getZoneById r.status.zoneId])
    | .ok (some zone) =>
      match env.deleteZone zone with
      | some e =>
        let r := dnsSetAvail r (deletionFailedCond r.generation s!"Failed to delete dns zone from Hetzner Cloud: {e}")
        .error ⟨r, some e,
          [DnsCall.getZoneById r.status.zoneId, DnsCall.deleteZone zone.id, DnsCall.statusUpdate r.status]⟩
      | none => .ok (r, [DnsCall.getZoneById r.status.zoneId, DnsCall.deleteZone zone.id])
  else .ok (r, [])

/-- DNS-zone deletion path (controller lines 82-160). -/
def dnsDeletionPath (env : DnsEnv) (r : HcloudDnsZone) : DnsReconcileResult :=
  let r := dnsSetAvail r ⟨"Available", false, "Deleting", "HcloudDnsZone resource is being deleted", r.generation⟩
  let t := [DnsCall.statusUpdate r.status]
  if env.statusErr 1 then ⟨r, some statusUpdateErr, t⟩
  else if dnsContainsFinalizer r then
    match dnsDeletionProvider env r with
    | .error res => { res with trace := t ++ res.trace }
    | .ok (r, t2) =>
      let r := { r with finalizers := r.finalizers.filter (fun f => f ≠ finalizerName) }
      let t := t ++ t2 ++ [DnsCall.recordUpdate r.finalizers r.annots]
      if env.updateErr 0 then ⟨r, some recordUpdateErr, t⟩
      else ⟨r, none, t⟩
  else ⟨r, none, t⟩

/-- Controller lines 162-175: default the sync-policy annotation. -/
def dnsAnnotationPhase (env : DnsEnv) (r : HcloudDnsZone) :
    Except DnsReconcileResult (HcloudDnsZone × List DnsCall × Nat) :=
  if annGet r.annots syncPolicy = "" then
    let r := { r with annots := some (mapSet (r.annots.getD []) syncPolicy "manage") }
    if env.updateErr 0 then
      .error ⟨r, some recordUpdateErr, [DnsCall.recordUpdate r.finalizers r.annots]⟩
    else .ok (r, [DnsCall.recordUpdate r.finalizers r.annots], 1)
  else .ok (r, [], 0)

/-- Controller lines 177-185: add the finalizer when absent and the policy
is not `read-only`. -/
def dnsFinalizerPhase (env : DnsEnv) (r : HcloudDnsZone) (n : Nat) :
    Except DnsReconcileResult (HcloudDnsZone × List DnsCall) :=
  if ¬ dnsContainsFinalizer r ∧ annGet r.annots syncPolicy ≠ "read-only" then
    let r := { r with finalizers := r.finalizers ++ [finalizerName] }
    if env.updateErr n then
      .error ⟨r, some recordUpdateErr, [DnsCall.recordUpdate r.finalizers r.annots]⟩
    else .ok (r, [DnsCall.recordUpdate r.finalizers r.annots])
  else .ok (r, [])

/-- `HcloudDnsZoneReconciler.Reconcile` (the record has been loaded).
After the annotation and finalizer phases the function returns success at
line 188: the live path performs no zone lookup, no create, no status
mirroring and no `Ready` condition. -/
def dnsZoneReconcile (env : DnsEnv) (r0 : HcloudDnsZone) : DnsReconcileResult :=
  let r := dnsSetAvail r0
    ⟨"Available", false, "Progressing", "HcloudDnsZone resource reconciliation in progress", r0.generation⟩
  let t := [DnsCall.statusUpdate r.status]
  if env.statusErr 0 then ⟨r, some statusUpdateErr, t⟩
  else if r.deletionTimestamp then
    let res := dnsDeletionPath env r
    { res with trace := t ++ res.trace }
  else
    match dnsAnnotationPhase env r with
    | .error res => { res with trace := t ++ res.trace }
    | .ok (r, t2, n) =>
      match dnsFinalizerPhase env r n with
      | .error res => { res with trace := t ++ t2 ++ res.trace }
      | .ok (r, t3) => ⟨r, none, t ++ t2 ++ t3⟩

/-- A network environment in which every store write succeeds, lookup by
name finds `net?`, creation returns id 77, and updates echo their
arguments. -/
def happyEnv (net? : Option Network) : Env where
  getById := fun _ => .ok none
  getByName := fun _ => .ok net?
  createNetwork := fun n ip l => .ok ⟨77, n, ip, l⟩
  updateNetworkLabels := fun net l => .ok { net with labels := l }
  updateNetworkCidr := fun net c => .ok { net with ipRange := c }
  deleteNetwork := fun _ => none
  statusErr := fun _ => false
  updateErr := fun _ => false

/-- A DNS-zone environment in which every call succeeds. -/
def dnsHappyEnv : DnsEnv where
  getZoneById := fun _ => .ok none
  deleteZone := fun _ => none
  statusErr := fun _ => false
  updateErr := fun _ => false

/-- Whether a call is the provider `CreateNetwork`. -/
def Call.isCreate : Call → Bool
  | .createNetwork _ _ _ => true
  | _ => false

/-- Whether a call is the provider `UpdateNetworkLabels`. -/
def Call.isLabelsUpdate : Call → Bool
  | .updateNetworkLabels _ _ => true
  | _ => false

/-- Whether a call is the provider `UpdateNetworkCidr`. -/
def Call.isCidrUpdate : Call → Bool
  | .updateNetworkCidr _ _ => true
  | _ => false

/-- Whether a call is a provider update (labels or CIDR). -/
def Call.isProviderUpdate : Call → Bool
  | .updateNetworkLabels _ _ => true
  | .updateNetworkCidr _ _ => true
  | _ => false

/-- Whether a call mutates the provider: create, either update, or delete.
Lookups and store writes are not provider mutations. -/
def Call.isProviderMutation : Call → Bool
  | .createNetwork _ _ _ => true
  | .updateNetworkLabels _ _ => true
  | .updateNetworkCidr _ _ => true
  | .deleteNetwork _ => true
  | _ => false

/-- Whether a DNS-zone call is a store write (status or record update)
rather than a provider call. -/
def DnsCall.isStoreWrite : DnsCall → Bool
  | .statusUpdate _ => true
  | .recordUpdate _ _ => true
  | _ => false

/-- The annotation-defaulting step as a pure record transformation
(controller lines 171-184, ignoring the persist). -/
def annAdj (r : HcloudNetwork) : HcloudNetwork :=
  if annGet r.annots syncPolicy = "" then
    { r with annots := some (mapSet (r.annots.getD []) syncPolicy "manage") }
  else r

/-- The finalizer-adding step as a pure record transformation
(controller lines 186-194, ignoring the persist). -/
def finAdj (r : HcloudNetwork) : HcloudNetwork :=
  if ¬ containsFinalizer r ∧ annGet r.annots syncPolicy ≠ "read-only" then
    { r with finalizers := r.finalizers ++ [finalizerName] }
  else r

/-- The record produced by mirroring a found external network into status
(controller lines 282-293 and 325-335). -/
def mirrorRecMsg (r : HcloudNetwork) (net : Network) (msg : String) : HcloudNetwork :=
  { r with status :=
    { networkId := net.id, ipRange := net.ipRange, labels := net.labels,
      observedGeneration := r.generation,
      conditions := setStatusCondition r.status.conditions (readyCond r.generation msg) } }

/-- The record writes issued by the annotation phase. -/
def annTrace (r : HcloudNetwork) : List Call :=
  if annGet r.annots syncPolicy = "" then
    [Call.recordUpdate (annAdj r).finalizers (annAdj r).annots] else []

/-- The number of record writes the annotation phase issues. -/
def annCount (r : HcloudNetwork) : Nat :=
  if annGet r.annots syncPolicy = "" then 1 else 0

/-- The record writes issued by the finalizer phase. -/
def finTrace (r : HcloudNetwork) : List Call :=
  if ¬ containsFinalizer r ∧ annGet r.annots syncPolicy ≠ "read-only" then
    [Call.recordUpdate (finAdj r).finalizers (finAdj r).annots] else []

/-- An empty initial status. -/
def status0 : NetworkStatus :=
  { networkId := 0, ipRange := "", labels := none, observedGeneration := 0, conditions := [] }

/-- A live record with an unknown sync-policy string. -/
def recUnknownPolicy : HcloudNetwork :=
  { deletionTimestamp := false, generation := 3,
    annots := some [(syncPolicy, "frobnicate")], finalizers := [],
    spec := { name := "n1", ipRange := "10.0.0.0/8", labels := none },
    status := status0 }

/-- A live `manage` record without the finalizer. -/
def recManage : HcloudNetwork :=
  { recUnknownPolicy with annots := some [(syncPolicy, "manage")] }

/-- An observed network that drifts from `recDrift` in both labels and CIDR. -/
def netBothDrift : Network :=
  { id := 42, name := "n1", ipRange := "10.0.0.0/16", labels := some [("a", "1")] }

/-- A `manage` record with the finalizer whose spec labels and CIDR both
differ from `netBothDrift`. -/
def recDrift : HcloudNetwork :=
  { recManage with
    finalizers := [finalizerName],
    spec := { name := "n1", ipRange := "10.0.0.0/8", labels := some [("b", "2")] } }

/-- An observed network whose canonical printed range is `10.0.0.0/8`. -/
def netCanon : Network :=
  { id := 9, name := "n1", ipRange := "10.0.0.0/8", labels := none }

/-- A `manage` record whose desired CIDR string `10.0.0.1/8` denotes the
same canonical network as `netCanon` but is written differently. -/
def recCanon : HcloudNetwork :=
  { recManage with
    finalizers := [finalizerName],
    spec := { name := "n1", ipRange := "10.0.0.1/8", labels := none } }

/-- An observed network carrying one label. -/
def netLabelled : Network :=
  { id := 5, name := "n1", ipRange := "10.0.0.0/8", labels := some [("a", "1")] }

/-- A `manage` record whose desired labels are the empty (non-nil) map. -/
def recEmptyLabels : HcloudNetwork :=
  { recManage with
    finalizers := [finalizerName],
    spec := { name := "n1", ipRange := "10.0.0.0/8", labels := some [] } }

/-- An observed network matching `recMatch` exactly. -/
def netMatch : Network :=
  { id := 42, name := "n1", ipRange := "10.0.0.0/8", labels := some [("b", "2")] }

/-- A steady `manage` record whose external network `netMatch` already
matches its spec exactly. -/
def recMatch : HcloudNetwork :=
  { recManage with
    finalizers := [finalizerName],
    spec := { name := "n1", ipRange := "10.0.0.0/8", labels := some [("b", "2")] } }

/-- A live `read-only` record. -/
def recReadOnly : HcloudNetwork :=
  { recManage with annots := some [(syncPolicy, "read-only")] }

/-- A deletion-requested record without the finalizer. -/
def recDeleting : HcloudNetwork :=
  { recManage with deletionTimestamp := true, status := { status0 with networkId := 42 } }

/-- An environment whose every status write fails. -/
def envStatusFail : Env :=
  { happyEnv none with statusErr := fun _ => true }

/-- A live `read-only` DNS-zone record. -/
def dnsRecReadOnly : HcloudDnsZone :=
  { deletionTimestamp := false, generation := 5,
    annots := some [(syncPolicy, "read-only")], finalizers := [],
    spec := { name := "example.com", mode := "PRIMARY", ttl := none, labels := none },
    status := { zoneId := 0, mode := "", ttl := 0, labels := none,
                observedGeneration := 0, conditions := [] } }

/-- A live `manage` DNS-zone record. -/
def dnsRecManage : HcloudDnsZone :=
  { deletionTimestamp := false, generation := 5,
    annots := some [(syncPolicy, "manage")], finalizers := [],
    spec := { name := "example.com", mode := "PRIMARY", ttl := none, labels := none },
    status := { zoneId := 0, mode := "", ttl := 0, labels := none,
                observedGeneration := 0, conditions := [] } }

/-! ### Helper lemmas -/

theorem findCondition_setStatusCondition (cs : List Condition) (c : Condition) :
    findCondition (setStatusCondition cs c) c.type = some c := by
  induction cs with
  | nil => simp [setStatusCondition, findCondition]
  | cons c0 rest ih =>
    by_cases h : c0.type = c.type
    · simp [setStatusCondition, findCondition, h]
    · simpa [setStatusCondition, findCondition, h] using ih

theorem setStatusCondition_collapse (cs : List Condition) (c₁ c₂ : Condition)
    (h : c₁.type = c₂.type) :
    setStatusCondition (setStatusCondition cs c₁) c₂ = setStatusCondition cs c₂ := by
  induction cs with
  | nil => simp [setStatusCondition, h]
  | cons c0 rest ih =>
    by_cases h0 : c0.type = c₁.type
    · simp [setStatusCondition, h0, h ▸ h0, h]
    · have h0' : ¬ c0.type = c₂.type := fun hx => h0 (h ▸ hx)
      simp [setStatusCondition, h0, h0', ih]

theorem mem_setStatusCondition {cs : List Condition} {c c' : Condition}
    (h : c' ∈ setStatusCondition cs c) : c' ∈ cs ∨ c' = c := by
  induction cs with
  | nil => simpa [setStatusCondition] using h
  | cons c0 rest ih =>
    by_cases h0 : c0.type = c.type
    · simp only [setStatusCondition, if_pos h0] at h
      rcases List.mem_cons.mp h with h | h
      · right; exact h
      · left; exact List.mem_cons_of_mem _ h
    · simp only [setStatusCondition, if_neg h0] at h
      rcases List.mem_cons.mp h with h | h
      · left; exact h ▸ List.mem_cons_self _ _
      · rcases ih h with h | h
        · left; exact List.mem_cons_of_mem _ h
        · right; exact h

theorem lookupKey_append_absent (l : Labels) (k v : String)
    (h : lookupKey l k = none) :
    lookupKey (l ++ [(k, v)]) k = some v := by
  induction l with
  | nil => simp [lookupKey]
  | cons kv rest ih =>
    by_cases hk : kv.1 = k
    · simp [lookupKey, hk] at h
    · simp only [lookupKey, hk, if_false] at h
      simpa [lookupKey, hk] using ih h

theorem lookupKey_overwrite (l : Labels) (k v : String)
    (h : lookupKey l k ≠ none) :
    lookupKey (l.map (fun kv => if kv.1 = k then (k, v) else kv)) k = some v := by
  induction l with
  | nil => simp [lookupKey] at h
  | cons kv rest ih =>
    by_cases hk : kv.1 = k
    · simp [lookupKey, hk]
    · simp only [lookupKey, hk, if_false] at h
      simpa [lookupKey, hk] using ih h

theorem mapSet_lookup (l : Labels) (k v : String) :
    lookupKey (mapSet l k v) k = some v := by
  unfold mapSet
  split
  · next h => exact lookupKey_append_absent l k v h
  · next h => exact lookupKey_overwrite l k v h

theorem setAvail_deletionTimestamp (r : HcloudNetwork) (c : Condition) :
    (setAvail r c).deletionTimestamp = r.deletionTimestamp := rfl

theorem setAvail_generation (r : HcloudNetwork) (c : Condition) :
    (setAvail r c).generation = r.generation := rfl

theorem setAvail_annots (r : HcloudNetwork) (c : Condition) :
    (setAvail r c).annots = r.annots := rfl

theorem setAvail_finalizers (r : HcloudNetwork) (c : Condition) :
    (setAvail r c).finalizers = r.finalizers := rfl

theorem setAvail_spec (r : HcloudNetwork) (c : Condition) :
    (setAvail r c).spec = r.spec := rfl

theorem setAvail_conditions (r : HcloudNetwork) (c : Condition) :
    (setAvail r c).status.conditions = setStatusCondition r.status.conditions c := rfl

theorem containsFinalizer_setAvail (r : HcloudNetwork) (c : Condition) :
    containsFinalizer (setAvail r c) = containsFinalizer r := rfl

theorem dnsSetAvail_deletionTimestamp (r : HcloudDnsZone) (c : Condition) :
    (dnsSetAvail r c).deletionTimestamp = r.deletionTimestamp := rfl

theorem dnsSetAvail_generation (r : HcloudDnsZone) (c : Condition) :
    (dnsSetAvail r c).generation = r.generation := rfl

theorem dnsSetAvail_annots (r : HcloudDnsZone) (c : Condition) :
    (dnsSetAvail r c).annots = r.annots := rfl

theorem dnsSetAvail_finalizers (r : HcloudDnsZone) (c : Condition) :
    (dnsSetAvail r c).finalizers = r.finalizers := rfl

theorem dnsSetAvail_spec (r : HcloudDnsZone) (c : Condition) :
    (dnsSetAvail r c).spec = r.spec := rfl

theorem dnsContainsFinalizer_setAvail (r : HcloudDnsZone) (c : Condition) :
    dnsContainsFinalizer (dnsSetAvail r c) = dnsContainsFinalizer r := rfl

theorem annAdj_deletionTimestamp (r : HcloudNetwork) :
    (annAdj r).deletionTimestamp = r.deletionTimestamp := by
  unfold annAdj; split <;> rfl

theorem annAdj_generation (r : HcloudNetwork) :
    (annAdj r).generation = r.generation := by
  unfold annAdj; split <;> rfl

theorem annAdj_finalizers (r : HcloudNetwork) :
    (annAdj r).finalizers = r.finalizers := by
  unfold annAdj; split <;> rfl

theorem annAdj_spec (r : HcloudNetwork) : (annAdj r).spec = r.spec := by
  unfold annAdj; split <;> rfl

theorem annAdj_status (r : HcloudNetwork) : (annAdj r).status = r.status := by
  unfold annAdj; split <;> rfl

theorem containsFinalizer_annAdj (r : HcloudNetwork) :
    containsFinalizer (annAdj r) = containsFinalizer r := by
  unfold containsFinalizer; rw [annAdj_finalizers]

theorem annAdj_of_ne (r : HcloudNetwork) (h : annGet r.annots syncPolicy ≠ "") :
    annAdj r = r := by
  unfold annAdj; simp [h]

theorem annGet_annAdj_of_empty (r : HcloudNetwork)
    (h : annGet r.annots syncPolicy = "") :
    annGet (annAdj r).annots syncPolicy = "manage" := by
  unfold annAdj
  rw [if_pos h]
  simp only [annGet]
  rw [mapSet_lookup]
  rfl

theorem annGet_annAdj_ne_empty (r : HcloudNetwork) :
    annGet (annAdj r).annots syncPolicy ≠ "" := by
  by_cases h : annGet r.annots syncPolicy = ""
  · rw [annGet_annAdj_of_empty r h]; decide
  · rw [annAdj_of_ne r h]; exact h

theorem annGet_annAdj_readonly (r : HcloudNetwork) :
    (annGet (annAdj r).annots syncPolicy = "read-only") ↔
      (annGet r.annots syncPolicy = "read-only") := by
  by_cases h : annGet r.annots syncPolicy = ""
  · rw [annGet_annAdj_of_empty r h, h]
    constructor
    · intro hx; exact absurd hx (by decide)
    · intro hx; exact absurd hx (by decide)
  · rw [annAdj_of_ne r h]

theorem finAdj_deletionTimestamp (r : HcloudNetwork) :
    (finAdj r).deletionTimestamp = r.deletionTimestamp := by
  unfold finAdj; split <;> rfl

theorem finAdj_generation (r : HcloudNetwork) :
    (finAdj r).generation = r.generation := by
  unfold finAdj; split <;> rfl

theorem finAdj_annots (r : HcloudNetwork) : (finAdj r).annots = r.annots := by
  unfold finAdj; split <;> rfl

theorem finAdj_spec (r : HcloudNetwork) : (finAdj r).spec = r.spec := by
  unfold finAdj; split <;> rfl

theorem finAdj_status (r : HcloudNetwork) : (finAdj r).status = r.status := by
  unfold finAdj; split <;> rfl

theorem containsFinalizer_finAdj (r : HcloudNetwork)
    (h : annGet r.annots syncPolicy ≠ "read-only") :
    containsFinalizer (finAdj r) = true := by
  unfold finAdj
  split
  · next hg => simp [containsFinalizer, finalizerName]
  · next hg =>
    rcases not_and_or.mp hg with hg | hg
    · simpa [containsFinalizer] using not_not.mp hg
    · exact absurd h (not_not.mp (by simpa using hg))

theorem finAdj_notMem (r : HcloudNetwork) :
    (finAdj r).finalizers = r.finalizers ∨
      (finAdj r).finalizers = r.finalizers ++ [finalizerName] := by
  unfold finAdj; split
  · right; rfl
  · left; rfl

theorem annotationPhase_eq (env : Env) (r : HcloudNetwork) :
    annotationPhase env r =
      if annGet r.annots syncPolicy = "" then
        (if env.updateErr 0 then Except.error ⟨annAdj r, some recordUpdateErr, annTrace r⟩
         else Except.ok (annAdj r, annTrace r, 1))
      else Except.ok (r, [], 0) := by
  unfold annotationPhase
  by_cases h : annGet r.annots syncPolicy = ""
  · simp only [annAdj, annTrace, if_pos h]
  · simp only [annAdj, annTrace, if_neg h]

theorem finalizerPhase_eq (env : Env) (r : HcloudNetwork) (n : Nat) :
    finalizerPhase env r n =
      if ¬ containsFinalizer r ∧ annGet r.annots syncPolicy ≠ "read-only" then
        (if env.updateErr n then Except.error ⟨finAdj r, some recordUpdateErr, finTrace r⟩
         else Except.ok (finAdj r, finTrace r))
      else Except.ok (r, []) := by
  unfold finalizerPhase
  by_cases h : ¬ containsFinalizer r = true ∧ ¬ annGet r.annots syncPolicy = "read-only"
  · simp only [finAdj, finTrace, if_pos h]
  · simp only [finAdj, finTrace, if_neg h]

theorem networkMirrorSuccess_eq (env : Env) (r : HcloudNetwork) (net : Network)
    (t : List Call) (msg : String) :
    networkMirrorSuccess env r net t msg =
      ⟨mirrorRecMsg r net msg,
       if env.statusErr 1 then some statusUpdateErr else none,
       t ++ [Call.statusUpdate (mirrorRecMsg r net msg).status]⟩ := by
  unfold networkMirrorSuccess mirrorRecMsg
  split <;> simp_all

theorem networkReadOnlyMissing_eq (env : Env) (r : HcloudNetwork) :
    networkReadOnlyMissing env r =
      ⟨setAvail r (failedCond r.generation readOnlyMissingMsg),
       if env.statusErr 1 then some statusUpdateErr else none,
       [Call.statusUpdate (setAvail r (failedCond r.generation readOnlyMissingMsg)).status]⟩ := by
  unfold networkReadOnlyMissing
  split <;> simp_all

theorem labelsStep_cases (env : Env) (r : HcloudNetwork) (net : Network) (b : Bool) :
    (b = false ∧ labelsStep env r net b = .ok (net, [])) ∨
    (b = true ∧ ∃ net2, env.updateNetworkLabels net r.spec.labels = .ok net2 ∧
       labelsStep env r net b = .ok (net2, [Call.updateNetworkLabels net.id r.spec.labels])) ∨
    (b = true ∧ ∃ e, env.updateNetworkLabels net r.spec.labels = .error e ∧
       labelsStep env r net b = .error
         ⟨setAvail r (failedCond r.generation (updateFailMsg e)), some e,
          [Call.updateNetworkLabels net.id r.spec.labels,
           Call.statusUpdate (setAvail r (failedCond r.generation (updateFailMsg e))).status]⟩) := by
  cases b with
  | false => left; exact ⟨rfl, rfl⟩
  | true =>
    right
    cases h : env.updateNetworkLabels net r.spec.labels with
    | error e => right; exact ⟨rfl, e, rfl, by simp [labelsStep, h, setAvail_spec]⟩
    | ok net2 => left; exact ⟨rfl, net2, rfl, by simp [labelsStep, h]⟩

theorem cidrStep_cases (env : Env) (r : HcloudNetwork) (net : Network) (b : Bool) :
    (b = false ∧ cidrStep env r net b = .ok (net, [])) ∨
    (b = true ∧ ∃ net3, env.updateNetworkCidr net r.spec.ipRange = .ok net3 ∧
       cidrStep env r net b = .ok (net3, [Call.updateNetworkCidr net.id r.spec.ipRange])) ∨
    (b = true ∧ ∃ e, env.updateNetworkCidr net r.spec.ipRange = .error e ∧
       cidrStep env r net b = .error
         ⟨setAvail r (failedCond r.generation (updateFailMsg e)), some e,
          [Call.updateNetworkCidr net.id r.spec.ipRange,
           Call.statusUpdate (setAvail r (failedCond r.generation (updateFailMsg e))).status]⟩) := by
  cases b with
  | false => left; exact ⟨rfl, rfl⟩
  | true =>
    right
    cases h : env.updateNetworkCidr net r.spec.ipRange with
    | error e => right; exact ⟨rfl, e, rfl, by simp [cidrStep, h, setAvail_spec]⟩
    | ok net3 => left; exact ⟨rfl, net3, rfl, by simp [cidrStep, h]⟩

theorem networkCreatePath_cases (env : Env) (r : HcloudNetwork) :
    (∃ e, env.createNetwork r.spec.name r.spec.ipRange r.spec.labels = .error e ∧
       networkCreatePath env r =
         ⟨setAvail r (failedCond r.generation (createFailMsg e)), some e,
          [Call.createNetwork r.spec.name r.spec.ipRange r.spec.labels,
           Call.statusUpdate (setAvail r (failedCond r.generation (createFailMsg e))).status]⟩) ∨
    (∃ net, env.createNetwork r.spec.name r.spec.ipRange r.spec.labels = .ok net ∧
       networkCreatePath env r =
         networkMirrorSuccess env r net
           [Call.createNetwork r.spec.name r.spec.ipRange r.spec.labels] (createdMsg net.id)) := by
  cases h : env.createNetwork r.spec.name r.spec.ipRange r.spec.labels with
  | error e => left; exact ⟨e, rfl, by simp [networkCreatePath, h, setAvail_spec]⟩
  | ok net => right; exact ⟨net, rfl, by simp [networkCreatePath, h]⟩

theorem networkLookupPath_cases (env : Env) (r : HcloudNetwork) :
    (∃ e, env.getByName r.spec.name = .error e ∧
       networkLookupPath env r =
         ⟨setAvail r (failedCond r.generation (lookupFailMsg e)), some e,
          [Call.getByName r.spec.name,
           Call.statusUpdate (setAvail r (failedCond r.generation (lookupFailMsg e))).status]⟩) ∨
    (∃ net, env.getByName r.spec.name = .ok (some net) ∧
       networkLookupPath env r =
         { networkFoundPath env r net with
           trace := Call.getByName r.spec.name :: (networkFoundPath env r net).trace }) ∨
    (env.getByName r.spec.name = .ok none ∧ annGet r.annots syncPolicy ≠ "read-only" ∧
       networkLookupPath env r =
         { networkCreatePath env r with
           trace := Call.getByName r.spec.name :: (networkCreatePath env r).trace }) ∨
    (env.getByName r.spec.name = .ok none ∧ annGet r.annots syncPolicy = "read-only" ∧
       networkLookupPath env r =
         { networkReadOnlyMissing env r with
           trace := Call.getByName r.spec.name :: (networkReadOnlyMissing env r).trace }) := by
  cases hg : env.getByName r.spec.name with
  | error e =>
    left; exact ⟨e, rfl, by simp [networkLookupPath, hg]⟩
  | ok o =>
    cases o with
    | some net =>
      right; left; exact ⟨net, rfl, by simp [networkLookupPath, hg]⟩
    | none =>
      by_cases hro : annGet r.annots syncPolicy = "read-only"
      · right; right; right
        exact ⟨rfl, hro, by simp [networkLookupPath, hg, hro]⟩
      · right; right; left
        exact ⟨rfl, hro, by simp [networkLookupPath, hg, hro]⟩

theorem networkLivePath_cases (env : Env) (r : HcloudNetwork) :
    (annGet r.annots syncPolicy = "" ∧ env.updateErr 0 = true ∧
       networkLivePath env r = ⟨annAdj r, some recordUpdateErr, annTrace r⟩) ∨
    (¬ containsFinalizer (annAdj r) = true ∧
       annGet (annAdj r).annots syncPolicy ≠ "read-only" ∧
       env.updateErr (annCount r) = true ∧
       networkLivePath env r =
         ⟨finAdj (annAdj r), some recordUpdateErr, annTrace r ++ finTrace (annAdj r)⟩) ∨
    (networkLivePath env r =
       { networkLookupPath env (finAdj (annAdj r)) with
         trace := annTrace r ++ finTrace (annAdj r) ++
                  (networkLookupPath env (finAdj (annAdj r))).trace }) := by
  unfold networkLivePath
  rw [annotationPhase_eq]
  by_cases hA : annGet r.annots syncPolicy = ""
  · rw [if_pos hA]
    by_cases hU : env.updateErr 0 = true
    · rw [if_pos hU]
      left; exact ⟨hA, hU, rfl⟩
    · rw [if_neg hU]
      dsimp only
      rw [finalizerPhase_eq]
      by_cases hF : ¬ containsFinalizer (annAdj r) = true ∧
          ¬ annGet (annAdj r).annots syncPolicy = "read-only"
      · rw [if_pos hF]
        by_cases hU1 : env.updateErr 1 = true
        · rw [if_pos hU1]
          right; left
          refine ⟨hF.1, hF.2, ?_, rfl⟩
          simpa [annCount, hA] using hU1
        · rw [if_neg hU1]
          right; right; rfl
      · rw [if_neg hF]
        have hfa : finAdj (annAdj r) = annAdj r := by
          unfold finAdj; rw [if_neg hF]
        have hft : finTrace (annAdj r) = [] := by
          unfold finTrace; rw [if_neg hF]
        right; right
        rw [hfa, hft]
  · rw [if_neg hA]
    dsimp only
    have haa : annAdj r = r := annAdj_of_ne r hA
    have hat : annTrace r = [] := by unfold annTrace; rw [if_neg hA]
    rw [finalizerPhase_eq]
    by_cases hF : ¬ containsFinalizer r = true ∧
        ¬ annGet r.annots syncPolicy = "read-only"
    · rw [if_pos hF]
      by_cases hU0 : env.updateErr 0 = true
      · rw [if_pos hU0]
        right; left
        rw [haa]
        refine ⟨hF.1, hF.2, ?_, ?_⟩
        · simpa [annCount, hA] using hU0
        · rw [hat]
      · rw [if_neg hU0]
        right; right
        rw [haa, hat]
    · rw [if_neg hF]
      have hfa : finAdj (annAdj r) = r := by
        rw [haa]; unfold finAdj; rw [if_neg hF]
      have hft : finTrace (annAdj r) = [] := by
        rw [haa]; unfold finTrace; rw [if_neg hF]
      right; right
      rw [hfa, hft, hat]

theorem networkDeletionProvider_cases (env : Env) (r : HcloudNetwork) :
    (∃ t, networkDeletionProvider env r = .ok (r, t) ∧
       ∀ c ∈ t, (∃ i, c = Call.getById i) ∨ (∃ i, c = Call.deleteNetwork i)) ∨
    (∃ res, networkDeletionProvider env r = .error res ∧ (∃ e, res.err = some e) ∧
       (∃ msg, res.record = setAvail r (deletionFailedCond r.generation msg)) ∧
       ∀ c ∈ res.trace, (∃ i, c = Call.getById i) ∨ (∃ i, c = Call.deleteNetwork i) ∨
         (∃ st, c = Call.statusUpdate st)) := by
  unfold networkDeletionProvider
  split
  · cases hg : env.getById r.status.networkId with
    | error e =>
      dsimp only
      right
      refine ⟨_, rfl, ⟨e, rfl⟩, ⟨_, rfl⟩, ?_⟩
      intro c hc
      simp only [List.mem_cons, List.mem_singleton, List.not_mem_nil, or_false] at hc
      rcases hc with h | h
      · exact Or.inl ⟨_, h⟩
      · exact Or.inr (Or.inr ⟨_, h⟩)
    | ok o =>
      cases o with
      | none =>
        dsimp only
        left
        refine ⟨_, rfl, ?_⟩
        intro c hc
        simp only [List.mem_singleton] at hc
        exact Or.inl ⟨_, hc⟩
      | some net =>
        dsimp only
        cases hd : env.deleteNetwork net with
        | none =>
          dsimp only
          left
          refine ⟨_, rfl, ?_⟩
          intro c hc
          simp only [List.mem_cons, List.mem_singleton, List.not_mem_nil, or_false] at hc
          rcases hc with h | h
          · exact Or.inl ⟨_, h⟩
          · exact Or.inr ⟨_, h⟩
        | some e =>
          dsimp only
          right
          refine ⟨_, rfl, ⟨e, rfl⟩, ⟨_, rfl⟩, ?_⟩
          intro c hc
          simp only [List.mem_cons, List.mem_singleton, List.not_mem_nil, or_false] at hc
          rcases hc with h | h | h
          · exact Or.inl ⟨_, h⟩
          · exact Or.inr (Or.inl ⟨_, h⟩)
          · exact Or.inr (Or.inr ⟨_, h⟩)
  · left; exact ⟨[], rfl, by simp⟩

theorem networkDeletionPath_trace (env : Env) (r : HcloudNetwork) :
    ∀ c ∈ (networkDeletionPath env r).trace,
      c.isCreate = false ∧ c.isProviderUpdate = false := by
  intro c hc
  unfold networkDeletionPath at hc
  dsimp only at hc
  by_cases h1 : env.statusErr 1 = true
  · rw [if_pos h1] at hc
    simp only [List.mem_singleton] at hc
    subst hc; exact ⟨rfl, rfl⟩
  · rw [if_neg h1] at hc
    by_cases h2 : containsFinalizer (setAvail r (deletingCond r.generation)) = true
    · rw [if_pos h2] at hc
      rcases networkDeletionProvider_cases env (setAvail r (deletingCond r.generation))
        with ⟨t, hok, hcls⟩ | ⟨res, herr, _, _, hcls⟩
      · rw [hok] at hc
        dsimp only at hc
        by_cases h3 : env.updateErr 0 = true
        · rw [if_pos h3] at hc
          simp only [List.cons_append, List.nil_append, List.mem_cons,
            List.mem_append, List.mem_singleton] at hc
          rcases hc with h | h | h | h
          · subst h; exact ⟨rfl, rfl⟩
          · rcases hcls c h with ⟨i, h⟩ | ⟨i, h⟩ <;> (subst h; exact ⟨rfl, rfl⟩)
          · subst h; exact ⟨rfl, rfl⟩
          · simp at h
        · rw [if_neg h3] at hc
          simp only [List.cons_append, List.nil_append, List.mem_cons,
            List.mem_append, List.mem_singleton] at hc
          rcases hc with h | h | h | h
          · subst h; exact ⟨rfl, rfl⟩
          · rcases hcls c h with ⟨i, h⟩ | ⟨i, h⟩ <;> (subst h; exact ⟨rfl, rfl⟩)
          · subst h; exact ⟨rfl, rfl⟩
          · simp at h
      · rw [herr] at hc
        dsimp only at hc
        simp only [List.cons_append, List.nil_append, List.mem_cons] at hc
        rcases hc with h | h
        · subst h; exact ⟨rfl, rfl⟩
        · rcases hcls c h with ⟨i, h⟩ | ⟨i, h⟩ | ⟨st, h⟩ <;> (subst h; exact ⟨rfl, rfl⟩)
    · rw [if_neg h2] at hc
      simp only [List.mem_singleton] at hc
      subst hc; exact ⟨rfl, rfl⟩

theorem networkDeletionPath_noFinalizer (env : Env) (r : HcloudNetwork)
    (h : containsFinalizer r = false) :
    (networkDeletionPath env r).record = setAvail r (deletingCond r.generation) := by
  unfold networkDeletionPath
  dsimp only
  have h2 : containsFinalizer (setAvail r (deletingCond r.generation)) = true ↔ False := by
    rw [containsFinalizer_setAvail, h]; simp
  by_cases h1 : env.statusErr 1 = true
  · rw [if_pos h1]
  · rw [if_neg h1, if_neg (by simp [h2])]

theorem networkDeletionPath_err_none_find (env : Env) (r : HcloudNetwork)
    (h : (networkDeletionPath env r).err = none) :
    findCondition (networkDeletionPath env r).record.status.conditions "Available" =
      some (deletingCond r.generation) := by
  have hfind : findCondition
      (setAvail r (deletingCond r.generation)).status.conditions "Available" =
      some (deletingCond r.generation) := by
    rw [setAvail_conditions]
    exact findCondition_setStatusCondition r.status.conditions (deletingCond r.generation)
  unfold networkDeletionPath at h ⊢
  dsimp only at h ⊢
  by_cases h1 : env.statusErr 1 = true
  · rw [if_pos h1] at h
    simp [statusUpdateErr] at h
  · rw [if_neg h1] at h ⊢
    by_cases h2 : containsFinalizer (setAvail r (deletingCond r.generation)) = true
    · rw [if_pos h2] at h ⊢
      rcases networkDeletionProvider_cases env (setAvail r (deletingCond r.generation))
        with ⟨t, hok, _⟩ | ⟨res, herr, ⟨e, he⟩, _, _⟩
      · rw [hok] at h ⊢
        dsimp only at h ⊢
        by_cases h3 : env.updateErr 0 = true
        · rw [if_pos h3] at h
          simp [recordUpdateErr] at h
        · rw [if_neg h3]
          exact hfind
      · rw [herr] at h
        dsimp only at h
        rw [he] at h
        simp at h
    · rw [if_neg h2] at h ⊢
      exact hfind

theorem networkFoundPath_trace (env : Env) (r : HcloudNetwork) (net : Network) :
    ∀ c ∈ (networkFoundPath env r net).trace,
      (c = Call.updateNetworkLabels net.id r.spec.labels ∧
         needsLabelsUpdate r.spec net = true) ∨
      ((∃ i, c = Call.updateNetworkCidr i r.spec.ipRange) ∧
         needsCidrUpdate r.spec net = true) ∨
      (∃ st, c = Call.statusUpdate st) := by
  intro c hc
  unfold networkFoundPath at hc
  by_cases hro : annGet r.annots syncPolicy ≠ "read-only"
  · rw [if_pos hro] at hc
    rcases labelsStep_cases env r net (needsLabelsUpdate r.spec net) with
      ⟨hb, heq⟩ | ⟨hb, net2, hupd, heq⟩ | ⟨hb, e, hupd, heq⟩
    case pos.inr.inr.intro.intro.intro =>
      rw [heq] at hc
      dsimp only at hc
      simp only [List.mem_cons, List.mem_singleton, List.not_mem_nil, or_false] at hc
      rcases hc with h | h
      · exact Or.inl ⟨h, hb⟩
      · exact Or.inr (Or.inr ⟨_, h⟩)
    all_goals {
      rw [heq] at hc
      dsimp only at hc
      rcases cidrStep_cases env r _ (needsCidrUpdate r.spec net) with
        ⟨hb2, heq2⟩ | ⟨hb2, net3, hupd2, heq2⟩ | ⟨hb2, e2, hupd2, heq2⟩ <;>
      · rw [heq2] at hc
        dsimp only at hc
        try rw [networkMirrorSuccess_eq] at hc
        simp only [List.append_nil, List.nil_append, List.cons_append, List.mem_cons,
          List.mem_append, List.mem_singleton, List.not_mem_nil, or_false] at hc
        first
        | (rcases hc with h | h
           · first
             | exact Or.inl ⟨h, ‹_›⟩
             | exact Or.inr (Or.inl ⟨⟨_, h⟩, ‹_›⟩)
             | exact Or.inr (Or.inr ⟨_, h⟩)
           · first
             | exact Or.inl ⟨h, ‹_›⟩
             | exact Or.inr (Or.inl ⟨⟨_, h⟩, ‹_›⟩)
             | exact Or.inr (Or.inr ⟨_, h⟩))
        | (rcases hc with h | h | h
           · first
             | exact Or.inl ⟨h, ‹_›⟩
             | exact Or.inr (Or.inl ⟨⟨_, h⟩, ‹_›⟩)
             | exact Or.inr (Or.inr ⟨_, h⟩)
           · first
             | exact Or.inl ⟨h, ‹_›⟩
             | exact Or.inr (Or.inl ⟨⟨_, h⟩, ‹_›⟩)
             | exact Or.inr (Or.inr ⟨_, h⟩)
           · first
             | exact Or.inl ⟨h, ‹_›⟩
             | exact Or.inr (Or.inl ⟨⟨_, h⟩, ‹_›⟩)
             | exact Or.inr (Or.inr ⟨_, h⟩))
        | (simp only [List.mem_singleton] at hc
           first
           | exact Or.inl ⟨hc, ‹_›⟩
           | exact Or.inr (Or.inl ⟨⟨_, hc⟩, ‹_›⟩)
           | exact Or.inr (Or.inr ⟨_, hc⟩))
        | exact Or.inr (Or.inr ⟨_, hc⟩)
        | exact Or.inl ⟨hc, ‹_›⟩
        | exact Or.inr (Or.inl ⟨⟨_, hc⟩, ‹_›⟩) }
  · rw [if_neg hro] at hc
    rw [networkMirrorSuccess_eq] at hc
    simp only [List.nil_append, List.mem_singleton] at hc
    exact Or.inr (Or.inr ⟨_, hc⟩)

theorem networkFoundPath_finalizers (env : Env) (r : HcloudNetwork) (net : Network) :
    (networkFoundPath env r net).record.finalizers = r.finalizers := by
  unfold networkFoundPath
  by_cases hro : annGet r.annots syncPolicy ≠ "read-only"
  · rw [if_pos hro]
    rcases labelsStep_cases env r net (needsLabelsUpdate r.spec net) with
      ⟨hb, heq⟩ | ⟨hb, net2, hupd, heq⟩ | ⟨hb, e, hupd, heq⟩ <;> rw [heq] <;> dsimp only
    case pos.inr.inr.intro.intro.intro => exact setAvail_finalizers r _
    all_goals {
      rcases cidrStep_cases env r _ (needsCidrUpdate r.spec net) with
        ⟨hb2, heq2⟩ | ⟨hb2, net3, hupd2, heq2⟩ | ⟨hb2, e2, hupd2, heq2⟩ <;>
          rw [heq2] <;> dsimp only <;>
        first
        | exact setAvail_finalizers r _
        | (rw [networkMirrorSuccess_eq]; rfl) }
  · rw [if_neg hro]
    rw [networkMirrorSuccess_eq]
    rfl

theorem networkFoundPath_err_none (env : Env) (r : HcloudNetwork) (net : Network)
    (h : (networkFoundPath env r net).err = none) :
    ∃ n3, (networkFoundPath env r net).record = mirrorRecMsg r n3 (readyMsg n3.id) ∧
      env.statusErr 1 = false := by
  unfold networkFoundPath at h ⊢
  by_cases hro : annGet r.annots syncPolicy ≠ "read-only"
  · rw [if_pos hro] at h ⊢
    rcases labelsStep_cases env r net (needsLabelsUpdate r.spec net) with
      ⟨hb, heq⟩ | ⟨hb, net2, hupd, heq⟩ | ⟨hb, e, hupd, heq⟩ <;>
        rw [heq] at h ⊢ <;> dsimp only at h ⊢
    case pos.inr.inr.intro.intro.intro => simp at h
    all_goals {
      rcases cidrStep_cases env r _ (needsCidrUpdate r.spec net) with
        ⟨hb2, heq2⟩ | ⟨hb2, net3, hupd2, heq2⟩ | ⟨hb2, e2, hupd2, heq2⟩ <;>
          rw [heq2] at h ⊢ <;> dsimp only at h ⊢ <;>
        first
        | (rw [networkMirrorSuccess_eq] at h ⊢
           refine ⟨_, rfl, ?_⟩
           by_cases hs : env.statusErr 1 = true
           · rw [if_pos hs] at h; simp at h
           · simpa using hs)
        | simp at h }
  · rw [if_neg hro] at h ⊢
    rw [networkMirrorSuccess_eq] at h ⊢
    refine ⟨net, rfl, ?_⟩
    by_cases hs : env.statusErr 1 = true
    · rw [if_pos hs] at h; simp at h
    · simpa using hs

theorem networkFoundPath_nodrift (env : Env) (r : HcloudNetwork) (net : Network)
    (hl : needsLabelsUpdate r.spec net = false)
    (hc : needsCidrUpdate r.spec net = false) :
    networkFoundPath env r net =
      ⟨mirrorRecMsg r net (readyMsg net.id),
       if env.statusErr 1 then some statusUpdateErr else none,
       [Call.statusUpdate (mirrorRecMsg r net (readyMsg net.id)).status]⟩ := by
  unfold networkFoundPath
  rw [hl, hc]
  by_cases hro : annGet r.annots syncPolicy ≠ "read-only"
  · rw [if_pos hro]
    show (match labelsStep env r net false with
      | Except.error res => res
      | Except.ok (net2, t1) =>
        match cidrStep env r net2 false with
        | Except.error res => { res with trace := t1 ++ res.trace }
        | Except.ok (net3, t2) =>
          networkMirrorSuccess env r net3 (t1 ++ t2) (readyMsg net3.id)) = _
    have h1 : labelsStep env r net false = Except.ok (net, []) := rfl
    have h2 : cidrStep env r net false = Except.ok (net, []) := rfl
    rw [h1]
    dsimp only
    rw [h2]
    dsimp only
    rw [networkMirrorSuccess_eq]
    simp
  · rw [if_neg hro]
    rw [networkMirrorSuccess_eq]
    simp

theorem networkCreatePath_trace (env : Env) (r : HcloudNetwork) :
    ∀ c ∈ (networkCreatePath env r).trace,
      c = Call.createNetwork r.spec.name r.spec.ipRange r.spec.labels ∨
      (∃ st, c = Call.statusUpdate st) := by
  intro c hc
  rcases networkCreatePath_cases env r with ⟨e, hcall, heq⟩ | ⟨net, hcall, heq⟩
  · rw [heq] at hc
    simp only [List.mem_cons, List.mem_singleton, List.not_mem_nil, or_false] at hc
    rcases hc with h | h
    · exact Or.inl h
    · exact Or.inr ⟨_, h⟩
  · rw [heq, networkMirrorSuccess_eq] at hc
    simp only [List.cons_append, List.nil_append, List.mem_cons,
      List.mem_singleton, List.not_mem_nil, or_false] at hc
    rcases hc with h | h
    · exact Or.inl h
    · exact Or.inr ⟨_, h⟩

theorem networkCreatePath_finalizers (env : Env) (r : HcloudNetwork) :
    (networkCreatePath env r).record.finalizers = r.finalizers := by
  rcases networkCreatePath_cases env r with ⟨e, hcall, heq⟩ | ⟨net, hcall, heq⟩
  · rw [heq]; exact setAvail_finalizers r _
  · rw [heq, networkMirrorSuccess_eq]; rfl

theorem networkCreatePath_err_none (env : Env) (r : HcloudNetwork)
    (h : (networkCreatePath env r).err = none) :
    ∃ net, (networkCreatePath env r).record = mirrorRecMsg r net (createdMsg net.id) := by
  rcases networkCreatePath_cases env r with ⟨e, hcall, heq⟩ | ⟨net, hcall, heq⟩
  · rw [heq] at h; simp at h
  · rw [heq, networkMirrorSuccess_eq]
    exact ⟨net, rfl⟩

theorem networkCreatePath_has_create (env : Env) (r : HcloudNetwork) :
    Call.createNetwork r.spec.name r.spec.ipRange r.spec.labels ∈
      (networkCreatePath env r).trace := by
  rcases networkCreatePath_cases env r with ⟨e, hcall, heq⟩ | ⟨net, hcall, heq⟩
  · rw [heq]; exact List.mem_cons_self _ _
  · rw [heq, networkMirrorSuccess_eq]
    exact List.mem_cons_self _ _

theorem networkReconcile_cases (env : Env) (r0 : HcloudNetwork) :
    (env.statusErr 0 = true ∧
       networkReconcile env r0 =
         ⟨setAvail r0 (progressingCond r0.generation), some statusUpdateErr,
          [Call.statusUpdate (setAvail r0 (progressingCond r0.generation)).status]⟩) ∨
    (env.statusErr 0 = false ∧ r0.deletionTimestamp = true ∧
       networkReconcile env r0 =
         { networkDeletionPath env (setAvail r0 (progressingCond r0.generation)) with
           trace := Call.statusUpdate (setAvail r0 (progressingCond r0.generation)).status ::
             (networkDeletionPath env (setAvail r0 (progressingCond r0.generation))).trace }) ∨
    (env.statusErr 0 = false ∧ r0.deletionTimestamp = false ∧
       networkReconcile env r0 =
         { networkLivePath env (setAvail r0 (progressingCond r0.generation)) with
           trace := Call.statusUpdate (setAvail r0 (progressingCond r0.generation)).status ::
             (networkLivePath env (setAvail r0 (progressingCond r0.generation))).trace }) := by
  unfold networkReconcile
  dsimp only
  by_cases h0 : env.statusErr 0 = true
  · rw [if_pos h0]
    exact Or.inl ⟨h0, rfl⟩
  · rw [if_neg h0]
    by_cases hd : r0.deletionTimestamp = true
    · rw [if_pos (show (setAvail r0 (progressingCond r0.generation)).deletionTimestamp = true from hd)]
      exact Or.inr (Or.inl ⟨by simpa using h0, hd, rfl⟩)
    · rw [if_neg (show ¬ (setAvail r0 (progressingCond r0.generation)).deletionTimestamp = true from hd)]
      exact Or.inr (Or.inr ⟨by simpa using h0, by simpa using hd, rfl⟩)

theorem annTrace_class (r : HcloudNetwork) :
    ∀ c ∈ annTrace r, ∃ f a, c = Call.recordUpdate f a := by
  intro c hc
  unfold annTrace at hc
  split at hc
  · simp only [List.mem_singleton] at hc
    exact ⟨_, _, hc⟩
  · simp at hc

theorem finTrace_class (r : HcloudNetwork) :
    ∀ c ∈ finTrace r, ∃ f a, c = Call.recordUpdate f a := by
  intro c hc
  unfold finTrace at hc
  split at hc
  · simp only [List.mem_singleton] at hc
    exact ⟨_, _, hc⟩
  · simp at hc

theorem networkDeletionPath_class (env : Env) (r : HcloudNetwork) :
    ∀ c ∈ (networkDeletionPath env r).trace,
      (∃ st, c = Call.statusUpdate st) ∨ (∃ f a, c = Call.recordUpdate f a) ∨
      (∃ i, c = Call.getById i) ∨ (∃ i, c = Call.deleteNetwork i) := by
  intro c hc
  unfold networkDeletionPath at hc
  dsimp only at hc
  by_cases h1 : env.statusErr 1 = true
  · rw [if_pos h1] at hc
    simp only [List.mem_singleton] at hc
    exact Or.inl ⟨_, hc⟩
  · rw [if_neg h1] at hc
    by_cases h2 : containsFinalizer (setAvail r (deletingCond r.generation)) = true
    · rw [if_pos h2] at hc
      rcases networkDeletionProvider_cases env (setAvail r (deletingCond r.generation))
        with ⟨t, hok, hcls⟩ | ⟨res, herr, _, _, hcls⟩
      · rw [hok] at hc
        dsimp only at hc
        have hm : c ∈ Call.statusUpdate (setAvail r (deletingCond r.generation)).status ::
            (t ++ [Call.recordUpdate (List.filter (fun f => decide (f ≠ finalizerName))
              (setAvail r (deletingCond r.generation)).finalizers)
              (setAvail r (deletingCond r.generation)).annots]) := by
          by_cases h3 : env.updateErr 0 = true
          · rw [if_pos h3] at hc; simpa using hc
          · rw [if_neg h3] at hc; simpa using hc
        simp only [List.mem_cons, List.mem_append, List.mem_singleton,
          List.not_mem_nil, or_false] at hm
        rcases hm with h | h | h
        · exact Or.inl ⟨_, h⟩
        · rcases hcls c h with ⟨i, h⟩ | ⟨i, h⟩
          · exact Or.inr (Or.inr (Or.inl ⟨_, h⟩))
          · exact Or.inr (Or.inr (Or.inr ⟨_, h⟩))
        · exact Or.inr (Or.inl ⟨_, _, h⟩)
      · rw [herr] at hc
        dsimp only at hc
        simp only [List.cons_append, List.nil_append, List.mem_cons] at hc
        rcases hc with h | h
        · exact Or.inl ⟨_, h⟩
        · rcases hcls c h with ⟨i, h⟩ | ⟨i, h⟩ | ⟨st, h⟩
          · exact Or.inr (Or.inr (Or.inl ⟨_, h⟩))
          · exact Or.inr (Or.inr (Or.inr ⟨_, h⟩))
          · exact Or.inl ⟨_, h⟩
    · rw [if_neg h2] at hc
      simp only [List.mem_singleton] at hc
      exact Or.inl ⟨_, hc⟩

theorem networkReconcile_trace_class (env : Env) (r0 : HcloudNetwork) :
    ∀ c ∈ (networkReconcile env r0).trace,
      (∃ st, c = Call.statusUpdate st) ∨ (∃ f a, c = Call.recordUpdate f a) ∨
      (∃ i, c = Call.getById i) ∨ (∃ i, c = Call.deleteNetwork i) ∨
      (c = Call.getByName r0.spec.name) ∨
      (env.getByName r0.spec.name = .ok none ∧
         c = Call.createNetwork r0.spec.name r0.spec.ipRange r0.spec.labels) ∨
      (∃ net, env.getByName r0.spec.name = .ok (some net) ∧
        ((c = Call.updateNetworkLabels net.id r0.spec.labels ∧
            needsLabelsUpdate r0.spec net = true) ∨
         ((∃ i, c = Call.updateNetworkCidr i r0.spec.ipRange) ∧
            needsCidrUpdate r0.spec net = true))) := by
  intro c hc
  rcases networkReconcile_cases env r0 with ⟨h0, heq⟩ | ⟨h0, hd, heq⟩ | ⟨h0, hd, heq⟩
  · rw [heq] at hc
    simp only [List.mem_singleton] at hc
    exact Or.inl ⟨_, hc⟩
  · rw [heq] at hc
    simp only [List.mem_cons] at hc
    rcases hc with h | h
    · exact Or.inl ⟨_, h⟩
    · rcases networkDeletionPath_class env _ c h with h | h | h | h
      · exact Or.inl h
      · exact Or.inr (Or.inl h)
      · exact Or.inr (Or.inr (Or.inl h))
      · exact Or.inr (Or.inr (Or.inr (Or.inl h)))
  · rw [heq] at hc
    simp only [List.mem_cons] at hc
    rcases hc with h | h
    · exact Or.inl ⟨_, h⟩
    · -- live path
      set rp := setAvail r0 (progressingCond r0.generation) with hrp
      have hspec2 : (finAdj (annAdj rp)).spec = r0.spec := by
        rw [finAdj_spec, annAdj_spec, hrp, setAvail_spec]
      rcases networkLivePath_cases env rp with
        ⟨hA, hU, heq2⟩ | ⟨hF1, hF2, hU, heq2⟩ | heq2
      · rw [heq2] at h
        rcases annTrace_class rp c h with ⟨f, a, h⟩
        exact Or.inr (Or.inl ⟨f, a, h⟩)
      · rw [heq2] at h
        simp only [List.mem_append] at h
        rcases h with h | h
        · rcases annTrace_class rp c h with ⟨f, a, h⟩
          exact Or.inr (Or.inl ⟨f, a, h⟩)
        · rcases finTrace_class _ c h with ⟨f, a, h⟩
          exact Or.inr (Or.inl ⟨f, a, h⟩)
      · rw [heq2] at h
        dsimp only at h
        simp only [List.append_assoc, List.mem_append] at h
        rcases h with h | h | h
        · rcases annTrace_class rp c h with ⟨f, a, h⟩
          exact Or.inr (Or.inl ⟨f, a, h⟩)
        · rcases finTrace_class _ c h with ⟨f, a, h⟩
          exact Or.inr (Or.inl ⟨f, a, h⟩)
        · -- lookup part
          rcases networkLookupPath_cases env (finAdj (annAdj rp)) with
            ⟨e, hg, heq3⟩ | ⟨net, hg, heq3⟩ | ⟨hg, hro, heq3⟩ | ⟨hg, hro, heq3⟩ <;>
            rw [hspec2] at hg <;> rw [heq3] at h <;> dsimp only at h <;>
            try simp only [List.mem_cons, List.not_mem_nil, or_false] at h
          · rcases h with h | h
            · rw [hspec2] at h
              exact Or.inr (Or.inr (Or.inr (Or.inr (Or.inl h))))
            · exact Or.inl ⟨_, h⟩
          · rcases h with h | h
            · rw [hspec2] at h
              exact Or.inr (Or.inr (Or.inr (Or.inr (Or.inl h))))
            · rcases networkFoundPath_trace env _ net c h with ⟨h1, h2⟩ | ⟨h1, h2⟩ | ⟨st, h1⟩
              · rw [hspec2] at h1 h2
                exact Or.inr (Or.inr (Or.inr (Or.inr (Or.inr (Or.inr
                  ⟨net, hg, Or.inl ⟨h1, h2⟩⟩)))))
              · rw [hspec2] at h1 h2
                exact Or.inr (Or.inr (Or.inr (Or.inr (Or.inr (Or.inr
                  ⟨net, hg, Or.inr ⟨h1, h2⟩⟩)))))
              · exact Or.inl ⟨_, h1⟩
          · rcases h with h | h
            · rw [hspec2] at h
              exact Or.inr (Or.inr (Or.inr (Or.inr (Or.inl h))))
            · rcases networkCreatePath_trace env _ c h with h | ⟨st, h⟩
              · rw [hspec2] at h
                exact Or.inr (Or.inr (Or.inr (Or.inr (Or.inr (Or.inl ⟨hg, h⟩)))))
              · exact Or.inl ⟨_, h⟩
          · rcases h with h | h
            · rw [hspec2] at h
              exact Or.inr (Or.inr (Or.inr (Or.inr (Or.inl h))))
            · rw [networkReadOnlyMissing_eq] at h
              simp only [List.mem_singleton] at h
              exact Or.inl ⟨_, h⟩

/-! ### Claim theorems -/

theorem annTrace_filter_pu (r : HcloudNetwork) :
    (annTrace r).filter Call.isProviderUpdate = [] := by
  unfold annTrace; split <;> simp [Call.isProviderUpdate]

theorem finTrace_filter_pu (r : HcloudNetwork) :
    (finTrace r).filter Call.isProviderUpdate = [] := by
  unfold finTrace; split <;> simp [Call.isProviderUpdate]

theorem networkFoundPath_bothDrift (env : Env) (r : HcloudNetwork)
    (net net2 net3 : Network)
    (hro : annGet r.annots syncPolicy ≠ "read-only")
    (hl : needsLabelsUpdate r.spec net = true)
    (hc : needsCidrUpdate r.spec net = true)
    (hul : env.updateNetworkLabels net r.spec.labels = .ok net2)
    (huc : env.updateNetworkCidr net2 r.spec.ipRange = .ok net3) :
    networkFoundPath env r net =
      networkMirrorSuccess env r net3
        ([Call.updateNetworkLabels net.id r.spec.labels] ++
         [Call.updateNetworkCidr net2.id r.spec.ipRange]) (readyMsg net3.id) := by
  unfold networkFoundPath
  rw [if_pos hro, hl, hc]
  simp [labelsStep, cidrStep, hul, huc]

theorem conds_step {base cs : List Condition} {k : Condition} {reasons : List String}
    (hk : k.reason ∈ reasons)
    (h : ∀ c ∈ cs, c ∈ base ∨ c.reason ∈ reasons) :
    ∀ c ∈ setStatusCondition cs k, c ∈ base ∨ c.reason ∈ reasons := by
  intro c hc
  rcases mem_setStatusCondition hc with h1 | h1
  · exact h c h1
  · subst h1; exact Or.inr hk

theorem conds_base {base : List Condition} {reasons : List String} :
    ∀ c ∈ base, c ∈ base ∨ c.reason ∈ reasons := fun c hc => Or.inl hc

theorem networkDeletionPath_record_conds (env : Env) (r : HcloudNetwork) :
    ∀ c ∈ (networkDeletionPath env r).record.status.conditions,
      c ∈ r.status.conditions ∨
      c.reason ∈ ["Progressing", "Deleting", "DeletionFailed", "Failed", "Ready"] := by
  have hrd : ∀ c ∈ (setAvail r (deletingCond r.generation)).status.conditions,
      c ∈ r.status.conditions ∨
      c.reason ∈ ["Progressing", "Deleting", "DeletionFailed", "Failed", "Ready"] := by
    rw [setAvail_conditions]
    exact conds_step (by simp [deletingCond]) conds_base
  unfold networkDeletionPath
  dsimp only
  by_cases h1 : env.statusErr 1 = true
  · rw [if_pos h1]; exact hrd
  · rw [if_neg h1]
    by_cases h2 : containsFinalizer (setAvail r (deletingCond r.generation)) = true
    · rw [if_pos h2]
      rcases networkDeletionProvider_cases env (setAvail r (deletingCond r.generation))
        with ⟨t, hok, _⟩ | ⟨res, herr, _, ⟨msg, hrec⟩, _⟩
      · rw [hok]
        dsimp only
        by_cases h3 : env.updateErr 0 = true
        · rw [if_pos h3]; exact hrd
        · rw [if_neg h3]; exact hrd
      · rw [herr]
        dsimp only
        rw [hrec, setAvail_conditions]
        exact conds_step (by simp [deletionFailedCond]) hrd
    · rw [if_neg h2]; exact hrd

theorem mirrorRecMsg_conds (r : HcloudNetwork) (net : Network) (msg : String) :
    (mirrorRecMsg r net msg).status.conditions =
      setStatusCondition r.status.conditions (readyCond r.generation msg) := rfl

theorem networkFoundPath_record_conds (env : Env) (r : HcloudNetwork) (net : Network) :
    ∀ c ∈ (networkFoundPath env r net).record.status.conditions,
      c ∈ r.status.conditions ∨
      c.reason ∈ ["Progressing", "Deleting", "DeletionFailed", "Failed", "Ready"] := by
  unfold networkFoundPath
  by_cases hro : annGet r.annots syncPolicy ≠ "read-only"
  · rw [if_pos hro]
    rcases labelsStep_cases env r net (needsLabelsUpdate r.spec net) with
      ⟨hb, heq⟩ | ⟨hb, net2, hupd, heq⟩ | ⟨hb, e, hupd, heq⟩ <;> rw [heq] <;> dsimp only
    case pos.inr.inr.intro.intro.intro =>
      rw [setAvail_conditions]
      exact conds_step (by simp [failedCond]) conds_base
    all_goals {
      rcases cidrStep_cases env r _ (needsCidrUpdate r.spec net) with
        ⟨hb2, heq2⟩ | ⟨hb2, net3, hupd2, heq2⟩ | ⟨hb2, e2, hupd2, heq2⟩ <;>
          rw [heq2] <;> dsimp only <;>
        first
        | (rw [setAvail_conditions]
           exact conds_step (by simp [failedCond]) conds_base)
        | (rw [networkMirrorSuccess_eq]
           dsimp only
           rw [mirrorRecMsg_conds]
           exact conds_step (by simp [readyCond]) conds_base) }
  · rw [if_neg hro]
    rw [networkMirrorSuccess_eq]
    dsimp only
    rw [mirrorRecMsg_conds]
    exact conds_step (by simp [readyCond]) conds_base

theorem networkCreatePath_record_conds (env : Env) (r : HcloudNetwork) :
    ∀ c ∈ (networkCreatePath env r).record.status.conditions,
      c ∈ r.status.conditions ∨
      c.reason ∈ ["Progressing", "Deleting", "DeletionFailed", "Failed", "Ready"] := by
  rcases networkCreatePath_cases env r with ⟨e, hcall, heq⟩ | ⟨net, hcall, heq⟩ <;> rw [heq]
  · rw [setAvail_conditions]
    exact conds_step (by simp [failedCond]) conds_base
  · rw [networkMirrorSuccess_eq]
    dsimp only
    rw [mirrorRecMsg_conds]
    exact conds_step (by simp [readyCond]) conds_base

theorem networkReconcile_conds (env : Env) (r : HcloudNetwork) :
    ∀ c ∈ (networkReconcile env r).record.status.conditions,
      c ∈ r.status.conditions ∨
      c.reason ∈ ["Progressing", "Deleting", "DeletionFailed", "Failed", "Ready"] := by
  have hrp : ∀ c ∈ (setAvail r (progressingCond r.generation)).status.conditions,
      c ∈ r.status.conditions ∨
      c.reason ∈ ["Progressing", "Deleting", "DeletionFailed", "Failed", "Ready"] := by
    rw [setAvail_conditions]
    exact conds_step (by simp [progressingCond]) conds_base
  rcases networkReconcile_cases env r with ⟨h0, heq⟩ | ⟨h0, hd, heq⟩ | ⟨h0, hd, heq⟩ <;> rw [heq]
  · exact hrp
  · dsimp only
    intro c hc
    rcases networkDeletionPath_record_conds env _ c hc with h | h
    · exact hrp c h
    · exact Or.inr h
  · dsimp only
    set rp := setAvail r (progressingCond r.generation) with hrpdef
    have hstat2 : (finAdj (annAdj rp)).status = rp.status := by
      rw [finAdj_status, annAdj_status]
    have hlift : ∀ c ∈ (finAdj (annAdj rp)).status.conditions,
        c ∈ r.status.conditions ∨
        c.reason ∈ ["Progressing", "Deleting", "DeletionFailed", "Failed", "Ready"] := by
      rw [hstat2]; exact hrp
    rcases networkLivePath_cases env rp with
      ⟨hA, hU, heq2⟩ | ⟨hF1, hF2, hU, heq2⟩ | heq2 <;> rw [heq2]
    · dsimp only
      rw [annAdj_status]
      exact hrp
    · dsimp only
      rw [finAdj_status, annAdj_status]
      exact hrp
    · dsimp only
      rcases networkLookupPath_cases env (finAdj (annAdj rp)) with
        ⟨e, hg, heq3⟩ | ⟨net, hg, heq3⟩ | ⟨hg, hro, heq3⟩ | ⟨hg, hro, heq3⟩ <;>
        rw [heq3] <;> dsimp only
      · intro c hc
        rw [setAvail_conditions] at hc
        rcases mem_setStatusCondition hc with h | h
        · exact hlift c h
        · subst h; exact Or.inr (by simp [failedCond])
      · intro c hc
        rcases networkFoundPath_record_conds env _ net c hc with h | h
        · exact hlift c h
        · exact Or.inr h
      · intro c hc
        rcases networkCreatePath_record_conds env _ c hc with h | h
        · exact hlift c h
        · exact Or.inr h
      · rw [networkReadOnlyMissing_eq]
        dsimp only
        rw [setAvail_conditions]
        intro c hc
        rcases mem_setStatusCondition hc with h | h
        · exact hlift c h
        · subst h; exact Or.inr (by simp [failedCond])

theorem networkReconcile_success_finalizer (env : Env) (r : HcloudNetwork)
    (hdel : r.deletionTimestamp = false)
    (hp2 : annGet r.annots syncPolicy ≠ "read-only")
    (herr : (networkReconcile env r).err = none) :
    containsFinalizer (networkReconcile env r).record = true := by
  rcases networkReconcile_cases env r with ⟨h0, heq⟩ | ⟨h0, hd, heq⟩ | ⟨h0, hd, heq⟩
  · rw [heq] at herr; simp at herr
  · rw [hdel] at hd; cases hd
  · rw [heq] at herr ⊢
    dsimp only at herr ⊢
    set rp := setAvail r (progressingCond r.generation) with hrpdef
    have hannrp : annGet rp.annots syncPolicy = annGet r.annots syncPolicy := by
      rw [hrpdef, setAvail_annots]
    have hro2 : annGet (annAdj rp).annots syncPolicy ≠ "read-only" := by
      intro hx
      exact hp2 (by rw [← hannrp]; exact (annGet_annAdj_readonly rp).mp hx)
    have hfin2 : containsFinalizer (finAdj (annAdj rp)) = true :=
      containsFinalizer_finAdj (annAdj rp) hro2
    rcases networkLivePath_cases env rp with
      ⟨hA, hU, heq2⟩ | ⟨hF1, hF2, hU, heq2⟩ | heq2 <;> rw [heq2] at herr ⊢
    · simp at herr
    · simp at herr
    · dsimp only at herr ⊢
      rcases networkLookupPath_cases env (finAdj (annAdj rp)) with
        ⟨e, hg, heq3⟩ | ⟨net, hg, heq3⟩ | ⟨hg, hro, heq3⟩ | ⟨hg, hro, heq3⟩ <;>
        rw [heq3] at herr ⊢ <;> dsimp only at herr ⊢
      · simp at herr
      · unfold containsFinalizer
        rw [networkFoundPath_finalizers]
        exact hfin2
      · unfold containsFinalizer
        rw [networkCreatePath_finalizers]
        exact hfin2
      · exact absurd hro (by rw [finAdj_annots]; exact hro2)

theorem networkReconcile_readonly_no_finalizer (env : Env) (r : HcloudNetwork)
    (hro : annGet r.annots syncPolicy = "read-only")
    (hnf : containsFinalizer r = false) :
    containsFinalizer (networkReconcile env r).record = false := by
  have hne : annGet r.annots syncPolicy ≠ "" := by rw [hro]; decide
  rcases networkReconcile_cases env r with ⟨h0, heq⟩ | ⟨h0, hd, heq⟩ | ⟨h0, hd, heq⟩ <;>
    rw [heq] <;> dsimp only
  · rw [containsFinalizer_setAvail]; exact hnf
  · rw [networkDeletionPath_noFinalizer env _ (by rw [containsFinalizer_setAvail]; exact hnf)]
    rw [containsFinalizer_setAvail, containsFinalizer_setAvail]
    exact hnf
  · set rp := setAvail r (progressingCond r.generation) with hrpdef
    have hannrp : annGet rp.annots syncPolicy = annGet r.annots syncPolicy := by
      rw [hrpdef, setAvail_annots]
    have haa : annAdj rp = rp := annAdj_of_ne rp (by rw [hannrp, hro]; decide)
    have hfa : finAdj rp = rp := by
      unfold finAdj
      rw [if_neg]
      intro hx
      exact hx.2 (by rw [hannrp]; exact hro)
    have hnfp : containsFinalizer rp = false := by
      rw [hrpdef, containsFinalizer_setAvail]; exact hnf
    rcases networkLivePath_cases env rp with
      ⟨hA, hU, heq2⟩ | ⟨hF1, hF2, hU, heq2⟩ | heq2 <;> rw [heq2] <;> dsimp only
    · rw [haa]; exact hnfp
    · rw [haa] at hF2
      exact absurd (by rw [hannrp] at hF2 ⊢; exact hro) hF2
    · rw [haa, hfa]
      rcases networkLookupPath_cases env rp with
        ⟨e, hg, heq3⟩ | ⟨net, hg, heq3⟩ | ⟨hg, hro3, heq3⟩ | ⟨hg, hro3, heq3⟩ <;>
        rw [heq3] <;> dsimp only
      · rw [containsFinalizer_setAvail]; exact hnfp
      · unfold containsFinalizer
        rw [networkFoundPath_finalizers]
        exact hnfp
      · unfold containsFinalizer
        rw [networkCreatePath_finalizers]
        exact hnfp
      · rw [networkReadOnlyMissing_eq]
        dsimp only
        rw [containsFinalizer_setAvail]
        exact hnfp

theorem findCondition_ready (cs : List Condition) (g : Int) (msg : String) :
    findCondition (setStatusCondition cs (readyCond g msg)) "Available" =
      some (readyCond g msg) :=
  findCondition_setStatusCondition cs (readyCond g msg)

theorem findCondition_failed (cs : List Condition) (g : Int) (msg : String) :
    findCondition (setStatusCondition cs (failedCond g msg)) "Available" =
      some (failedCond g msg) :=
  findCondition_setStatusCondition cs (failedCond g msg)

theorem networkReconcile_err_none_reason (env : Env) (r : HcloudNetwork)
    (herr : (networkReconcile env r).err = none) :
    ∃ c, findCondition (networkReconcile env r).record.status.conditions "Available" =
        some c ∧
      (c.reason = "Deleting" ∨ c.reason = "Ready" ∨
       (c.reason = "Failed" ∧ r.deletionTimestamp = false ∧
        annGet r.annots syncPolicy = "read-only" ∧
        env.getByName r.spec.name = Except.ok none ∧
        c = failedCond r.generation readOnlyMissingMsg)) := by
  rcases networkReconcile_cases env r with ⟨h0, heq⟩ | ⟨h0, hd, heq⟩ | ⟨h0, hd, heq⟩
  · rw [heq] at herr; simp at herr
  · rw [heq] at herr ⊢
    dsimp only at herr ⊢
    have hgen : (setAvail r (progressingCond r.generation)).generation = r.generation :=
      setAvail_generation r _
    have := networkDeletionPath_err_none_find env (setAvail r (progressingCond r.generation)) herr
    rw [hgen] at this
    exact ⟨deletingCond r.generation, this, Or.inl rfl⟩
  · rw [heq] at herr ⊢
    dsimp only at herr ⊢
    set rp := setAvail r (progressingCond r.generation) with hrpdef
    have hannrp : annGet rp.annots syncPolicy = annGet r.annots syncPolicy := by
      rw [hrpdef, setAvail_annots]
    have hgen2 : (finAdj (annAdj rp)).generation = r.generation := by
      rw [finAdj_generation, annAdj_generation, hrpdef, setAvail_generation]
    have hspec2 : (finAdj (annAdj rp)).spec = r.spec := by
      rw [finAdj_spec, annAdj_spec, hrpdef, setAvail_spec]
    rcases networkLivePath_cases env rp with
      ⟨hA, hU, heq2⟩ | ⟨hF1, hF2, hU, heq2⟩ | heq2 <;> rw [heq2] at herr ⊢
    · simp at herr
    · simp at herr
    · dsimp only at herr ⊢
      rcases networkLookupPath_cases env (finAdj (annAdj rp)) with
        ⟨e, hg, heq3⟩ | ⟨net, hg, heq3⟩ | ⟨hg, hro, heq3⟩ | ⟨hg, hro, heq3⟩ <;>
        rw [heq3] at herr ⊢ <;> dsimp only at herr ⊢
      · simp at herr
      · rcases networkFoundPath_err_none env _ net herr with ⟨n3, hrec, _⟩
        rw [hrec, mirrorRecMsg_conds, findCondition_ready, hgen2]
        exact ⟨_, rfl, Or.inr (Or.inl rfl)⟩
      · rcases networkCreatePath_err_none env _ herr with ⟨net, hrec⟩
        rw [hrec, mirrorRecMsg_conds, findCondition_ready, hgen2]
        exact ⟨_, rfl, Or.inr (Or.inl rfl)⟩
      · rw [networkReadOnlyMissing_eq]
        dsimp only
        rw [setAvail_conditions, findCondition_failed, hgen2]
        refine ⟨_, rfl, Or.inr (Or.inr ⟨rfl, hd, ?_, ?_, rfl⟩)⟩
        · rw [← hannrp, ← (annGet_annAdj_readonly rp), ← finAdj_annots (annAdj rp)]
          exact hro
        · rw [← hspec2]
          exact hg

theorem annGet_mapSet_manage (x : Labels) :
    annGet (some (mapSet x syncPolicy "manage")) syncPolicy = "manage" := by
  simp only [annGet]
  rw [mapSet_lookup]
  rfl

theorem dnsDeletionPath_noFinalizer (env : DnsEnv) (r : HcloudDnsZone)
    (h : dnsContainsFinalizer r = false) :
    (dnsDeletionPath env r).record =
      dnsSetAvail r ⟨"Available", false, "Deleting",
        "HcloudDnsZone resource is being deleted", r.generation⟩ := by
  unfold dnsDeletionPath
  dsimp only
  have h2 : ¬ dnsContainsFinalizer (dnsSetAvail r ⟨"Available", false, "Deleting",
      "HcloudDnsZone resource is being deleted", r.generation⟩) = true := by
    rw [dnsContainsFinalizer_setAvail, h]; simp
  by_cases h1 : env.statusErr 1 = true
  · rw [if_pos h1]
  · rw [if_neg h1, if_neg h2]

theorem dnsReconcile_success_finalizer (env : DnsEnv) (r : HcloudDnsZone)
    (hdel : r.deletionTimestamp = false)
    (hp2 : annGet r.annots syncPolicy ≠ "read-only")
    (herr : (dnsZoneReconcile env r).err = none) :
    dnsContainsFinalizer (dnsZoneReconcile env r).record = true := by
  unfold dnsZoneReconcile at herr ⊢
  dsimp only at herr ⊢
  by_cases h0 : env.statusErr 0 = true
  · rw [if_pos h0] at herr; simp at herr
  · rw [if_neg h0] at herr ⊢
    rw [if_neg (show ¬ (dnsSetAvail r _).deletionTimestamp = true by
      rw [dnsSetAvail_deletionTimestamp, hdel]; simp)] at herr ⊢
    set rp := dnsSetAvail r ⟨"Available", false, "Progressing",
      "HcloudDnsZone resource reconciliation in progress", r.generation⟩ with hrpdef
    have hann : annGet rp.annots syncPolicy = annGet r.annots syncPolicy := by
      rw [hrpdef, dnsSetAvail_annots]
    unfold dnsAnnotationPhase at herr ⊢
    by_cases hA : annGet rp.annots syncPolicy = ""
    · rw [if_pos hA] at herr ⊢
      by_cases hU0 : env.updateErr 0 = true
      · rw [if_pos hU0] at herr; simp at herr
      · rw [if_neg hU0] at herr ⊢
        dsimp only at herr ⊢
        unfold dnsFinalizerPhase at herr ⊢
        have hman : annGet (some (mapSet (rp.annots.getD []) syncPolicy "manage"))
            syncPolicy = "manage" := annGet_mapSet_manage _
        by_cases hC : dnsContainsFinalizer
            { rp with annots := some (mapSet (rp.annots.getD []) syncPolicy "manage") } = true
        · rw [if_neg (by intro hx; exact hx.1 hC)] at herr ⊢
          exact hC
        · rw [if_pos (by
            refine ⟨by simpa using hC, ?_⟩
            show ¬ annGet ({ rp with annots := some (mapSet (rp.annots.getD [])
              syncPolicy "manage") } : HcloudDnsZone).annots syncPolicy = "read-only"
            rw [show ({ rp with annots := some (mapSet (rp.annots.getD [])
              syncPolicy "manage") } : HcloudDnsZone).annots =
              some (mapSet (rp.annots.getD []) syncPolicy "manage") from rfl, hman]
            decide)] at herr ⊢
          by_cases hU1 : env.updateErr 1 = true
          · rw [if_pos hU1] at herr; simp at herr
          · rw [if_neg hU1] at herr ⊢
            dsimp only at herr ⊢
            simp [dnsContainsFinalizer, finalizerName]
    · rw [if_neg hA] at herr ⊢
      dsimp only at herr ⊢
      unfold dnsFinalizerPhase at herr ⊢
      by_cases hC : dnsContainsFinalizer rp = true
      · rw [if_neg (by intro hx; exact hx.1 hC)] at herr ⊢
        exact hC
      · rw [if_pos (by
          refine ⟨by simpa using hC, ?_⟩
          rw [hann]; exact hp2)] at herr ⊢
        by_cases hU1 : env.updateErr 0 = true
        · rw [if_pos hU1] at herr; simp at herr
        · rw [if_neg hU1] at herr ⊢
          dsimp only at herr ⊢
          simp [dnsContainsFinalizer, finalizerName]

theorem dnsReconcile_readonly_no_finalizer (env : DnsEnv) (r : HcloudDnsZone)
    (hro : annGet r.annots syncPolicy = "read-only")
    (hnf : dnsContainsFinalizer r = false) :
    dnsContainsFinalizer (dnsZoneReconcile env r).record = false := by
  unfold dnsZoneReconcile
  dsimp only
  set rp := dnsSetAvail r ⟨"Available", false, "Progressing",
    "HcloudDnsZone resource reconciliation in progress", r.generation⟩ with hrpdef
  have hann : annGet rp.annots syncPolicy = "read-only" := by
    rw [hrpdef, dnsSetAvail_annots]; exact hro
  have hnfp : dnsContainsFinalizer rp = false := by
    rw [hrpdef, dnsContainsFinalizer_setAvail]; exact hnf
  by_cases h0 : env.statusErr 0 = true
  · rw [if_pos h0]; exact hnfp
  · rw [if_neg h0]
    by_cases hd : rp.deletionTimestamp = true
    · rw [if_pos hd]
      dsimp only
      rw [dnsDeletionPath_noFinalizer env rp hnfp]
      rw [dnsContainsFinalizer_setAvail]
      exact hnfp
    · rw [if_neg hd]
      unfold dnsAnnotationPhase
      rw [if_neg (by rw [hann]; decide)]
      dsimp only
      unfold dnsFinalizerPhase
      rw [if_neg (by intro hx; exact hx.2 hann)]
      exact hnfp

theorem mirrorRecMsg_deletionTimestamp (r : HcloudNetwork) (net : Network) (msg : String) :
    (mirrorRecMsg r net msg).deletionTimestamp = r.deletionTimestamp := rfl

theorem mirrorRecMsg_generation (r : HcloudNetwork) (net : Network) (msg : String) :
    (mirrorRecMsg r net msg).generation = r.generation := rfl

theorem mirrorRecMsg_annots (r : HcloudNetwork) (net : Network) (msg : String) :
    (mirrorRecMsg r net msg).annots = r.annots := rfl

theorem mirrorRecMsg_finalizers (r : HcloudNetwork) (net : Network) (msg : String) :
    (mirrorRecMsg r net msg).finalizers = r.finalizers := rfl

theorem mirrorRecMsg_spec (r : HcloudNetwork) (net : Network) (msg : String) :
    (mirrorRecMsg r net msg).spec = r.spec := rfl

theorem networkReconcile_nodrift (env : Env) (r : HcloudNetwork) (net : Network)
    (hdel : r.deletionTimestamp = false)
    (hlook : env.getByName r.spec.name = Except.ok (some net))
    (hlF : needsLabelsUpdate r.spec net = false)
    (hcF : needsCidrUpdate r.spec net = false)
    (hs : ∀ n, env.statusErr n = false) (hu : ∀ n, env.updateErr n = false) :
    networkReconcile env r =
      ⟨mirrorRecMsg (finAdj (annAdj (setAvail r (progressingCond r.generation)))) net
         (readyMsg net.id),
       none,
       Call.statusUpdate (setAvail r (progressingCond r.generation)).status ::
         (annTrace (setAvail r (progressingCond r.generation)) ++
          finTrace (annAdj (setAvail r (progressingCond r.generation))) ++
          (Call.getByName r.spec.name ::
           [Call.statusUpdate
             (mirrorRecMsg (finAdj (annAdj (setAvail r (progressingCond r.generation)))) net
               (readyMsg net.id)).status]))⟩ := by
  rcases networkReconcile_cases env r with ⟨h0, heq⟩ | ⟨h0, hd, heq⟩ | ⟨h0, hd, heq⟩
  · rw [hs 0] at h0; cases h0
  · rw [hdel] at hd; cases hd
  · rw [heq]
    set rp := setAvail r (progressingCond r.generation) with hrpdef
    have hspec2 : (finAdj (annAdj rp)).spec = r.spec := by
      rw [finAdj_spec, annAdj_spec, hrpdef, setAvail_spec]
    rcases networkLivePath_cases env rp with
      ⟨hA, hU, heq2⟩ | ⟨hF1, hF2, hU, heq2⟩ | heq2
    · rw [hu 0] at hU; cases hU
    · rw [hu (annCount rp)] at hU; cases hU
    · rw [heq2]
      dsimp only
      rcases networkLookupPath_cases env (finAdj (annAdj rp)) with
        ⟨e, hg, heq3⟩ | ⟨net2, hg, heq3⟩ | ⟨hg, hro, heq3⟩ | ⟨hg, hro, heq3⟩
      · rw [hspec2, hlook] at hg; cases hg
      · rw [hspec2, hlook] at hg
        have hnet : net2 = net := by
          injection hg with hg2; injection hg2 with hg3; exact hg3.symm
        subst hnet
        rw [heq3]
        dsimp only
        rw [networkFoundPath_nodrift env _ net2
          (by rw [hspec2]; exact hlF) (by rw [hspec2]; exact hcF)]
        dsimp only
        rw [if_neg (by rw [hs 1]; simp), hspec2]
      · rw [hspec2, hlook] at hg; cases hg
      · rw [hspec2, hlook] at hg; cases hg

theorem mirror_fixpoint (r2 : HcloudNetwork) (net : Network) (msg : String) :
    mirrorRecMsg (setAvail (mirrorRecMsg r2 net msg)
        (progressingCond (mirrorRecMsg r2 net msg).generation)) net msg =
      mirrorRecMsg r2 net msg := by
  unfold mirrorRecMsg setAvail
  dsimp only
  have e1 : setStatusCondition
      (setStatusCondition (setStatusCondition r2.status.conditions
        (readyCond r2.generation msg)) (progressingCond r2.generation))
      (readyCond r2.generation msg) =
      setStatusCondition r2.status.conditions (readyCond r2.generation msg) := by
    rw [setStatusCondition_collapse _ (readyCond r2.generation msg)
      (progressingCond r2.generation) rfl]
    rw [setStatusCondition_collapse _ (progressingCond r2.generation)
      (readyCond r2.generation msg) rfl]
  rw [e1]

theorem nodrift_trace_no_mutation (rp rpa : HcloudNetwork) (name : String)
    (st1 st2 : NetworkStatus) :
    ∀ c ∈ (Call.statusUpdate st1 ::
        (annTrace rp ++ finTrace rpa ++
         (Call.getByName name :: [Call.statusUpdate st2]))),
      c.isProviderMutation = false := by
  intro c hc
  simp only [List.cons_append, List.mem_cons, List.mem_append, List.mem_singleton,
    List.not_mem_nil, or_false] at hc
  rcases hc with h | (h | h) | h | h
  · subst h; rfl
  · rcases annTrace_class rp c h with ⟨f, a, h⟩; subst h; rfl
  · rcases finTrace_class rpa c h with ⟨f, a, h⟩; subst h; rfl
  · subst h; rfl
  · subst h; rfl

/-- C10: on every pass over an existing record, both reconcilers first set
`Available=False/Progressing` and persist status before any branching; if
that first persist fails the pass aborts with the error having issued no
other call; a network deletion pass additionally persists an
`Available=False/Deleting` condition even when the finalizer is absent,
and such a pass then returns success with zero provider calls. -/
theorem c10_progressing_first :
    (∀ (env : Env) (r : HcloudNetwork),
      (networkReconcile env r).trace.head? =
        some (Call.statusUpdate (setAvail r (progressingCond r.generation)).status)) ∧
    (∀ (env : Env) (r : HcloudNetwork), env.statusErr 0 = true →
      networkReconcile env r =
        ⟨setAvail r (progressingCond r.generation), some statusUpdateErr,
         [Call.statusUpdate (setAvail r (progressingCond r.generation)).status]⟩) ∧
    (∀ (env : Env) (r : HcloudNetwork), env.statusErr 0 = false → env.statusErr 1 = false →
      r.deletionTimestamp = true → containsFinalizer r = false →
      networkReconcile env r =
        ⟨setAvail (setAvail r (progressingCond r.generation)) (deletingCond r.generation), none,
         [Call.statusUpdate (setAvail r (progressingCond r.generation)).status,
          Call.statusUpdate (setAvail (setAvail r (progressingCond r.generation)) (deletingCond r.generation)).status]⟩) ∧
    (∀ (env : DnsEnv) (r : HcloudDnsZone),
      (dnsZoneReconcile env r).trace.head? =
        some (DnsCall.statusUpdate (dnsSetAvail r ⟨"Available", false, "Progressing",
          "HcloudDnsZone resource reconciliation in progress", r.generation⟩).status)) ∧
    (∀ (env : DnsEnv) (r : HcloudDnsZone), env.statusErr 0 = true →
      dnsZoneReconcile env r =
        ⟨dnsSetAvail r ⟨"Available", false, "Progressing",
           "HcloudDnsZone resource reconciliation in progress", r.generation⟩,
         some statusUpdateErr,
         [DnsCall.statusUpdate (dnsSetAvail r ⟨"Available", false, "Progressing",
           "HcloudDnsZone resource reconciliation in progress", r.generation⟩).status]⟩) := by
  refine ⟨fun env r => ?_, fun env r h => ?_, fun env r h0 h1 hd hf => ?_,
          fun env r => ?_, fun env r h => ?_⟩
  · unfold networkReconcile
    dsimp only
    split
    · rfl
    · split <;> simp
  · simp [networkReconcile, h]
  · unfold networkReconcile networkDeletionPath
    dsimp only
    simp only [h0, h1, hd, hf, setAvail_deletionTimestamp, setAvail_generation,
      containsFinalizer_setAvail, Bool.false_eq_true, if_false, if_true, ite_false, ite_true]
    rfl
  · unfold dnsZoneReconcile
    dsimp only
    split
    · rfl
    · split
      · simp
      · split
        · simp
        · split <;> simp
  · simp [dnsZoneReconcile, h]

/-- A witness for C10: the three network conjuncts evaluated on concrete
inputs. -/
theorem c10_progressing_first_witness :
    (networkReconcile (happyEnv none) recManage).trace.head? =
      some (Call.statusUpdate (setAvail recManage (progressingCond recManage.generation)).status) ∧
    networkReconcile envStatusFail recManage =
      ⟨setAvail recManage (progressingCond recManage.generation), some statusUpdateErr,
       [Call.statusUpdate (setAvail recManage (progressingCond recManage.generation)).status]⟩ ∧
    networkReconcile (happyEnv none) recDeleting =
      ⟨setAvail (setAvail recDeleting (progressingCond recDeleting.generation)) (deletingCond recDeleting.generation), none,
       [Call.statusUpdate (setAvail recDeleting (progressingCond recDeleting.generation)).status,
        Call.statusUpdate (setAvail (setAvail recDeleting (progressingCond recDeleting.generation)) (deletingCond recDeleting.generation)).status]⟩ :=
  ⟨c10_progressing_first.1 (happyEnv none) recManage,
   c10_progressing_first.2.1 envStatusFail recManage rfl,
   c10_progressing_first.2.2.1 (happyEnv none) recDeleting rfl rfl (by decide) (by decide)⟩

/-- C9: the create call is reachable only when the lookup by the spec name
returned not-found: any create call in a pass's trace implies the
environment answered the adoption lookup with `ok none`; in particular,
when `GetNetworkByName` returns an existing network, Reconcile never calls
create, whatever `status.networkId` was. -/
theorem c9_adoption_over_create (env : Env) (r : HcloudNetwork) (c : Call)
    (hc : c ∈ (networkReconcile env r).trace) (hcr : c.isCreate = true) :
    env.getByName r.spec.name = Except.ok none := by
  rcases networkReconcile_trace_class env r c hc with
    ⟨st, h⟩ | ⟨f, a, h⟩ | ⟨i, h⟩ | ⟨i, h⟩ | h | ⟨hg, h⟩ | ⟨net, hg, ⟨h, _⟩ | ⟨⟨i, h⟩, _⟩⟩ <;>
    subst h <;> first
    | exact hg
    | simp [Call.isCreate] at hcr

/-- A witness for C9: on a `manage` record with a provider that finds no
network, the pass issues a create call, and the theorem applied to that
call yields that the lookup answered not-found. -/
theorem c9_adoption_over_create_witness :
    Call.createNetwork "n1" "10.0.0.0/8" none ∈
      (networkReconcile (happyEnv none) recManage).trace ∧
    (happyEnv none).getByName recManage.spec.name = Except.ok none :=
  ⟨by decide,
   c9_adoption_over_create (happyEnv none) recManage
     (Call.createNetwork "n1" "10.0.0.0/8" none) (by decide) rfl⟩

/-- C7 (amended): only nil desired labels are "no opinion": when the
record's spec labels are nil, no pass ever issues a labels update call
(the counterexample shows that an empty non-nil desired map does issue an
update driving the external labels toward empty). -/
theorem c7_nil_labels_no_update (env : Env) (r : HcloudNetwork)
    (h : r.spec.labels = none) :
    ∀ c ∈ (networkReconcile env r).trace, c.isLabelsUpdate = false := by
  intro c hc
  rcases networkReconcile_trace_class env r c hc with
    ⟨st, hx⟩ | ⟨f, a, hx⟩ | ⟨i, hx⟩ | ⟨i, hx⟩ | hx | ⟨hg, hx⟩ |
    ⟨net, hg, ⟨hx, hdrift⟩ | ⟨⟨i, hx⟩, _⟩⟩ <;> subst hx <;>
    first
    | rfl
    | (exfalso
       rw [needsLabelsUpdate, h] at hdrift
       simp at hdrift)

/-- A witness for C7's amended theorem: on the nil-labels record the
lookup call found in the trace is, by the theorem, not a labels update. -/
theorem c7_nil_labels_no_update_witness :
    recManage.spec.labels = none ∧
    Call.getByName "n1" ∈ (networkReconcile (happyEnv (some netLabelled)) recManage).trace ∧
    (Call.getByName "n1").isLabelsUpdate = false :=
  ⟨rfl, by decide,
   c7_nil_labels_no_update (happyEnv (some netLabelled)) recManage rfl
     (Call.getByName "n1") (by decide)⟩

/-- C3 (amended): when both label drift and CIDR drift are present and both
provider updates succeed, a single pass issues exactly two provider update
calls — the labels update first, then the CIDR update — resolving both
drifts in the same pass rather than deferring one to the next pass. -/
theorem c3_both_updates_one_pass (env : Env) (r : HcloudNetwork)
    (net net2 net3 : Network)
    (hdel : r.deletionTimestamp = false)
    (h0 : env.statusErr 0 = false)
    (hu0 : env.updateErr 0 = false)
    (hp1 : annGet r.annots syncPolicy ≠ "")
    (hp2 : annGet r.annots syncPolicy ≠ "read-only")
    (hlook : env.getByName r.spec.name = Except.ok (some net))
    (hl : needsLabelsUpdate r.spec net = true)
    (hc : needsCidrUpdate r.spec net = true)
    (hul : env.updateNetworkLabels net r.spec.labels = .ok net2)
    (huc : env.updateNetworkCidr net2 r.spec.ipRange = .ok net3) :
    (networkReconcile env r).trace.filter Call.isProviderUpdate =
      [Call.updateNetworkLabels net.id r.spec.labels,
       Call.updateNetworkCidr net2.id r.spec.ipRange] := by
  rcases networkReconcile_cases env r with ⟨h0', _⟩ | ⟨_, hd', _⟩ | ⟨_, _, heq⟩
  · rw [h0'] at h0; cases h0
  · rw [hdel] at hd'; cases hd'
  · rw [heq]
    set rp := setAvail r (progressingCond r.generation) with hrp
    have hannrp : annGet rp.annots syncPolicy = annGet r.annots syncPolicy := by
      rw [hrp, setAvail_annots]
    have haa : annAdj rp = rp := annAdj_of_ne rp (by rw [hannrp]; exact hp1)
    have hat : annTrace rp = [] := by
      unfold annTrace
      rw [if_neg (by rw [hannrp]; exact hp1)]
    rcases networkLivePath_cases env rp with ⟨hA, _, _⟩ | ⟨_, _, hU, _⟩ | heq2
    · rw [hannrp] at hA; exact absurd hA hp1
    · have hcnt : annCount rp = 0 := by
        unfold annCount
        rw [if_neg (by rw [hannrp]; exact hp1)]
      rw [hcnt] at hU
      rw [hU] at hu0; cases hu0
    · rw [heq2, haa]
      dsimp only
      have hspec2 : (finAdj rp).spec = r.spec := by
        rw [finAdj_spec, hrp, setAvail_spec]
      have hann2 : annGet (finAdj rp).annots syncPolicy = annGet r.annots syncPolicy := by
        rw [finAdj_annots, hannrp]
      rcases networkLookupPath_cases env (finAdj rp) with
        ⟨e, hg, heq3⟩ | ⟨net', hg, heq3⟩ | ⟨hg, _, heq3⟩ | ⟨hg, _, heq3⟩
      · rw [hspec2, hlook] at hg; cases hg
      · rw [hspec2, hlook] at hg
        have hnet : net' = net := by
          injection hg with hg2; injection hg2 with hg3; exact hg3.symm
        subst hnet
        rw [heq3]
        dsimp only
        have hfp := networkFoundPath_bothDrift env (finAdj rp) net' net2 net3
          (by rw [hann2]; exact hp2)
          (by rw [hspec2]; exact hl)
          (by rw [hspec2]; exact hc)
          (by rw [hspec2]; exact hul)
          (by rw [hspec2]; exact huc)
        rw [hfp, networkMirrorSuccess_eq]
        dsimp only
        rw [hspec2]
        simp [List.filter_append, hat, finTrace_filter_pu, Call.isProviderUpdate]
      · rw [hspec2, hlook] at hg; cases hg
      · rw [hspec2, hlook] at hg; cases hg

/-- A witness for C3's amended theorem: the both-drift fixture issues the
labels update and then the CIDR update in one pass. -/
theorem c3_both_updates_one_pass_witness :
    (networkReconcile (happyEnv (some netBothDrift)) recDrift).trace.filter
        Call.isProviderUpdate =
      [Call.updateNetworkLabels netBothDrift.id recDrift.spec.labels,
       Call.updateNetworkCidr netBothDrift.id recDrift.spec.ipRange] :=
  c3_both_updates_one_pass (happyEnv (some netBothDrift)) recDrift
    netBothDrift { netBothDrift with labels := recDrift.spec.labels }
    { netBothDrift with labels := recDrift.spec.labels, ipRange := recDrift.spec.ipRange }
    rfl rfl rfl (by decide) (by decide) rfl (by decide) (by decide) rfl rfl

/-- C4 (amended): structural drift is decided by string equality between
the desired CIDR string and the observed network's canonical printed
form: when the strings are equal the differ reports no drift and the pass
issues no CIDR update call (the counterexample shows that equal canonical
network values written as different strings do report drift and do issue
an update call). -/
theorem c4_cidr_string_equality (env : Env) (r : HcloudNetwork) (net : Network)
    (hlook : env.getByName r.spec.name = Except.ok (some net))
    (heq : r.spec.ipRange = net.ipRange) :
    needsCidrUpdate r.spec net = false ∧
    ∀ c ∈ (networkReconcile env r).trace, c.isCidrUpdate = false := by
  have hnd : needsCidrUpdate r.spec net = false := by
    rw [needsCidrUpdate, heq, bne_self_eq_false]
  refine ⟨hnd, ?_⟩
  intro c hc
  rcases networkReconcile_trace_class env r c hc with
    ⟨st, hx⟩ | ⟨f, a, hx⟩ | ⟨i, hx⟩ | ⟨i, hx⟩ | hx | ⟨hg, hx⟩ |
    ⟨net2, hg, ⟨hx, hdrift⟩ | ⟨⟨i, hx⟩, hdrift⟩⟩
  · subst hx; rfl
  · subst hx; rfl
  · subst hx; rfl
  · subst hx; rfl
  · subst hx; rfl
  · subst hx; rfl
  · subst hx; rfl
  · subst hx
    rw [hlook] at hg
    have hnet : net2 = net := by
      injection hg with hg2
      injection hg2 with hg3
      exact hg3.symm
    rw [hnet] at hdrift
    rw [hnd] at hdrift
    exact absurd hdrift (by simp)

/-- A witness for C4's amended theorem: with the observed network equal to
the desired CIDR string, no pass issues a CIDR update. -/
theorem c4_cidr_string_equality_witness :
    needsCidrUpdate recMatch.spec netMatch = false ∧
    ∀ c ∈ (networkReconcile (happyEnv (some netMatch)) recMatch).trace,
      c.isCidrUpdate = false :=
  c4_cidr_string_equality (happyEnv (some netMatch)) recMatch netMatch rfl rfl

/-- C1 (amended): a sync-policy string other than the three known values
(and other than the absent/empty value) is treated with `manage`
semantics, not read-only: on a successful non-deletion pass the finalizer
ends up present; when the lookup finds nothing a create call is issued;
and no condition with reason `InvalidSyncPolicy` is ever set — every
condition the controller writes has one of the five reasons Progressing,
Deleting, DeletionFailed, Failed, Ready. -/
theorem c1_unknown_policy_manage (env : Env) (r : HcloudNetwork)
    (hdel : r.deletionTimestamp = false)
    (hp1 : annGet r.annots syncPolicy ≠ "")
    (hp2 : annGet r.annots syncPolicy ≠ "read-only") :
    ((networkReconcile env r).err = none →
       containsFinalizer (networkReconcile env r).record = true) ∧
    (env.getByName r.spec.name = Except.ok none → env.statusErr 0 = false →
       env.updateErr 0 = false →
       Call.createNetwork r.spec.name r.spec.ipRange r.spec.labels ∈
         (networkReconcile env r).trace) ∧
    (∀ c ∈ (networkReconcile env r).record.status.conditions,
       c ∈ r.status.conditions ∨
       c.reason ∈ ["Progressing", "Deleting", "DeletionFailed", "Failed", "Ready"]) := by
  refine ⟨fun herr => networkReconcile_success_finalizer env r hdel hp2 herr,
          fun hlook hs0 hu0 => ?_, networkReconcile_conds env r⟩
  rcases networkReconcile_cases env r with ⟨h0, heq⟩ | ⟨h0, hd, heq⟩ | ⟨h0, hd, heq⟩
  · rw [h0] at hs0; cases hs0
  · rw [hdel] at hd; cases hd
  · rw [heq]
    dsimp only
    set rp := setAvail r (progressingCond r.generation) with hrpdef
    have hannrp : annGet rp.annots syncPolicy = annGet r.annots syncPolicy := by
      rw [hrpdef, setAvail_annots]
    have hspec2 : (finAdj (annAdj rp)).spec = r.spec := by
      rw [finAdj_spec, annAdj_spec, hrpdef, setAvail_spec]
    have hann2 : annGet (finAdj (annAdj rp)).annots syncPolicy =
        annGet rp.annots syncPolicy := by
      rw [finAdj_annots, annAdj_of_ne rp (by rw [hannrp]; exact hp1)]
    rcases networkLivePath_cases env rp with
      ⟨hA, hU, heq2⟩ | ⟨hF1, hF2, hU, heq2⟩ | heq2
    · rw [hannrp] at hA; exact absurd hA hp1
    · have hcnt : annCount rp = 0 := by
        unfold annCount
        rw [if_neg (by rw [hannrp]; exact hp1)]
      rw [hcnt] at hU
      rw [hU] at hu0; cases hu0
    · rw [heq2]
      dsimp only
      rcases networkLookupPath_cases env (finAdj (annAdj rp)) with
        ⟨e, hg, heq3⟩ | ⟨net, hg, heq3⟩ | ⟨hg, hro, heq3⟩ | ⟨hg, hro, heq3⟩
      · rw [hspec2, hlook] at hg; cases hg
      · rw [hspec2, hlook] at hg; cases hg
      · rw [heq3]
        dsimp only
        refine List.mem_cons_of_mem _ (List.mem_append_right _ ?_)
        refine List.mem_cons_of_mem _ ?_
        have := networkCreatePath_has_create env (finAdj (annAdj rp))
        rw [hspec2] at this
        exact this
      · rw [hann2, hannrp] at hro
        exact absurd hro hp2

/-- A witness for C1's amended theorem: the unknown-policy fixture yields
a successful pass with the finalizer present and a create call issued. -/
theorem c1_unknown_policy_manage_witness :
    containsFinalizer (networkReconcile (happyEnv none) recUnknownPolicy).record = true ∧
    Call.createNetwork recUnknownPolicy.spec.name recUnknownPolicy.spec.ipRange
        recUnknownPolicy.spec.labels ∈
      (networkReconcile (happyEnv none) recUnknownPolicy).trace :=
  ⟨(c1_unknown_policy_manage (happyEnv none) recUnknownPolicy rfl
      (by decide) (by decide)).1 (by decide),
   (c1_unknown_policy_manage (happyEnv none) recUnknownPolicy rfl
      (by decide) (by decide)).2.1 rfl rfl rfl⟩

/-- C6: for both reconcilers, after a successful non-deletion pass on a
record whose sync policy is not `read-only` the controller finalizer is
present; and on a `read-only` record the finalizer is never added (a pass
never makes it appear). -/
theorem c6_finalizer_invariant :
    (∀ (env : Env) (r : HcloudNetwork), r.deletionTimestamp = false →
       annGet r.annots syncPolicy ≠ "read-only" →
       (networkReconcile env r).err = none →
       containsFinalizer (networkReconcile env r).record = true) ∧
    (∀ (env : Env) (r : HcloudNetwork), annGet r.annots syncPolicy = "read-only" →
       containsFinalizer r = false →
       containsFinalizer (networkReconcile env r).record = false) ∧
    (∀ (env : DnsEnv) (r : HcloudDnsZone), r.deletionTimestamp = false →
       annGet r.annots syncPolicy ≠ "read-only" →
       (dnsZoneReconcile env r).err = none →
       dnsContainsFinalizer (dnsZoneReconcile env r).record = true) ∧
    (∀ (env : DnsEnv) (r : HcloudDnsZone), annGet r.annots syncPolicy = "read-only" →
       dnsContainsFinalizer r = false →
       dnsContainsFinalizer (dnsZoneReconcile env r).record = false) :=
  ⟨fun env r => networkReconcile_success_finalizer env r,
   fun env r => networkReconcile_readonly_no_finalizer env r,
   fun env r => dnsReconcile_success_finalizer env r,
   fun env r => dnsReconcile_readonly_no_finalizer env r⟩

/-- A witness for C6: the invariant evaluated on concrete fixtures for
both reconcilers and both policies. -/
theorem c6_finalizer_invariant_witness :
    containsFinalizer (networkReconcile (happyEnv none) recManage).record = true ∧
    containsFinalizer (networkReconcile (happyEnv none) recReadOnly).record = false ∧
    dnsContainsFinalizer (dnsZoneReconcile dnsHappyEnv dnsRecManage).record = true ∧
    dnsContainsFinalizer (dnsZoneReconcile dnsHappyEnv dnsRecReadOnly).record = false :=
  ⟨c6_finalizer_invariant.1 (happyEnv none) recManage rfl (by decide) (by decide),
   c6_finalizer_invariant.2.1 (happyEnv none) recReadOnly (by decide) (by decide),
   c6_finalizer_invariant.2.2.1 dnsHappyEnv dnsRecManage rfl (by decide) (by decide),
   c6_finalizer_invariant.2.2.2 dnsHappyEnv dnsRecReadOnly (by decide) (by decide)⟩

/-- C8: on a live `read-only` record whose network is not found by name,
the pass persists `Available=False/Failed` with the read-only-missing
message and returns success; and this is the only no-error outcome whose
final `Available` condition has a failure reason: whenever a pass returns
no error and the final `Available` reason is `Failed`, the record was a
live `read-only` record whose lookup answered not-found. -/
theorem c8_readonly_notfound_success (env : Env) (r : HcloudNetwork) :
    (r.deletionTimestamp = false → annGet r.annots syncPolicy = "read-only" →
     env.getByName r.spec.name = Except.ok none → env.statusErr 0 = false →
     env.statusErr 1 = false →
     (networkReconcile env r).err = none ∧
     findCondition (networkReconcile env r).record.status.conditions "Available" =
       some (failedCond r.generation readOnlyMissingMsg) ∧
     Call.statusUpdate (networkReconcile env r).record.status ∈
       (networkReconcile env r).trace) ∧
    ((networkReconcile env r).err = none →
     ∀ c, findCondition (networkReconcile env r).record.status.conditions "Available" =
         some c → c.reason = "Failed" →
     r.deletionTimestamp = false ∧ annGet r.annots syncPolicy = "read-only" ∧
     env.getByName r.spec.name = Except.ok none) := by
  constructor
  · intro hdel hro hlook hs0 hs1
    rcases networkReconcile_cases env r with ⟨h0, heq⟩ | ⟨h0, hd, heq⟩ | ⟨h0, hd, heq⟩
    · rw [h0] at hs0; cases hs0
    · rw [hdel] at hd; cases hd
    · rw [heq]
      dsimp only
      set rp := setAvail r (progressingCond r.generation) with hrpdef
      have hannrp : annGet rp.annots syncPolicy = annGet r.annots syncPolicy := by
        rw [hrpdef, setAvail_annots]
      have haa : annAdj rp = rp := annAdj_of_ne rp (by rw [hannrp, hro]; decide)
      have hfa : finAdj rp = rp := by
        unfold finAdj
        rw [if_neg]
        intro hx
        exact hx.2 (by rw [hannrp]; exact hro)
      have hgen2 : rp.generation = r.generation := by
        rw [hrpdef, setAvail_generation]
      have hspec2 : rp.spec = r.spec := by rw [hrpdef, setAvail_spec]
      rcases networkLivePath_cases env rp with
        ⟨hA, hU, heq2⟩ | ⟨hF1, hF2, hU, heq2⟩ | heq2
      · rw [hannrp, hro] at hA; exact absurd hA (by decide)
      · rw [haa, hannrp] at hF2
        exact absurd hro hF2
      · rw [heq2, haa, hfa]
        dsimp only
        rcases networkLookupPath_cases env rp with
          ⟨e, hg, heq3⟩ | ⟨net, hg, heq3⟩ | ⟨hg, hro3, heq3⟩ | ⟨hg, hro3, heq3⟩
        · rw [hspec2, hlook] at hg; cases hg
        · rw [hspec2, hlook] at hg; cases hg
        · rw [hannrp] at hro3
          exact absurd hro hro3
        · rw [heq3, networkReadOnlyMissing_eq]
          dsimp only
          refine ⟨by rw [if_neg (by rw [hs1]; simp)], ?_, ?_⟩
          · rw [setAvail_conditions, findCondition_failed, hgen2]
          · refine List.mem_cons_of_mem _ (List.mem_append_right _ ?_)
            exact List.mem_cons_of_mem _ (List.mem_singleton.mpr rfl)
  · intro herr c hfindc hreason
    rcases networkReconcile_err_none_reason env r herr with ⟨c2, hfind2, hcase⟩
    rw [hfindc] at hfind2
    injection hfind2 with hc2
    subst hc2
    rcases hcase with h | h | ⟨_, h1, h2, h3, _⟩
    · rw [hreason] at h; exact absurd h (by decide)
    · rw [hreason] at h; exact absurd h (by decide)
    · exact ⟨h1, h2, h3⟩

/-- A witness for C8: a live read-only record with a not-found lookup
reconciles to success with the `Failed` condition persisted. -/
theorem c8_readonly_notfound_success_witness :
    (networkReconcile (happyEnv none) recReadOnly).err = none ∧
    findCondition (networkReconcile (happyEnv none) recReadOnly).record.status.conditions
        "Available" = some (failedCond recReadOnly.generation readOnlyMissingMsg) ∧
    Call.statusUpdate (networkReconcile (happyEnv none) recReadOnly).record.status ∈
      (networkReconcile (happyEnv none) recReadOnly).trace :=
  (c8_readonly_notfound_success (happyEnv none) recReadOnly).1
    rfl (by decide) rfl rfl rfl

/-- C5: on a record whose external network already matches the spec (the
observed canonical range equals the desired string and the desired labels
are nil or semantically equal to the observed ones), and a store that
accepts every write, a pass issues zero provider create/update/delete
calls; the record reached after the first pass is a fixpoint: every
further pass returns it unchanged (status and conditions included) and
also issues zero provider mutation calls. -/
theorem c5_idempotence (env : Env) (r : HcloudNetwork) (net : Network)
    (hdel : r.deletionTimestamp = false)
    (hlook : env.getByName r.spec.name = Except.ok (some net))
    (hcidr : net.ipRange = r.spec.ipRange)
    (hlab : r.spec.labels = none ∨ optMapBeq r.spec.labels net.labels = true)
    (hs : ∀ n, env.statusErr n = false) (hu : ∀ n, env.updateErr n = false) :
    (∀ c ∈ (networkReconcile env r).trace, c.isProviderMutation = false) ∧
    (networkReconcile env ((networkReconcile env r).record)).record =
      (networkReconcile env r).record ∧
    (∀ c ∈ (networkReconcile env ((networkReconcile env r).record)).trace,
       c.isProviderMutation = false) ∧
    (∀ n, Nat.iterate (fun s => (networkReconcile env s).record) n
        ((networkReconcile env r).record) = (networkReconcile env r).record) := by
  have hlF : needsLabelsUpdate r.spec net = false := by
    unfold needsLabelsUpdate
    rcases hlab with h | h
    · rw [h]; rfl
    · rw [h]; simp
  have hcF : needsCidrUpdate r.spec net = false := by
    rw [needsCidrUpdate, hcidr, bne_self_eq_false]
  have hpass := networkReconcile_nodrift env r net hdel hlook hlF hcF hs hu
  set rp := setAvail r (progressingCond r.generation) with hrpdef
  set M := mirrorRecMsg (finAdj (annAdj rp)) net (readyMsg net.id) with hMdef
  have hMdel : M.deletionTimestamp = false := by
    rw [hMdef, mirrorRecMsg_deletionTimestamp, finAdj_deletionTimestamp,
      annAdj_deletionTimestamp, hrpdef, setAvail_deletionTimestamp]
    exact hdel
  have hMspec : M.spec = r.spec := by
    rw [hMdef, mirrorRecMsg_spec, finAdj_spec, annAdj_spec, hrpdef, setAvail_spec]
  have hMlook : env.getByName M.spec.name = Except.ok (some net) := by
    rw [hMspec]; exact hlook
  have hMlF : needsLabelsUpdate M.spec net = false := by rw [hMspec]; exact hlF
  have hMcF : needsCidrUpdate M.spec net = false := by rw [hMspec]; exact hcF
  have hpass2 := networkReconcile_nodrift env M net hMdel hMlook hMlF hMcF hs hu
  have hMann : (setAvail M (progressingCond M.generation)).annots = (annAdj rp).annots := by
    rw [setAvail_annots, hMdef, mirrorRecMsg_annots, finAdj_annots]
  have hA2 : annAdj (setAvail M (progressingCond M.generation)) =
      setAvail M (progressingCond M.generation) :=
    annAdj_of_ne _ (by rw [hMann]; exact annGet_annAdj_ne_empty rp)
  have hB2 : finAdj (setAvail M (progressingCond M.generation)) =
      setAvail M (progressingCond M.generation) := by
    unfold finAdj
    rw [if_neg]
    rintro ⟨h1, h2⟩
    rw [hMann] at h2
    refine h1 ?_
    show (setAvail M (progressingCond M.generation)).finalizers.contains finalizerName = true
    rw [setAvail_finalizers, hMdef, mirrorRecMsg_finalizers]
    exact containsFinalizer_finAdj (annAdj rp) h2
  have hfix : (networkReconcile env M).record = M := by
    rw [hpass2]
    dsimp only
    rw [hA2, hB2, hMdef]
    exact mirror_fixpoint (finAdj (annAdj rp)) net (readyMsg net.id)
  have hrec1 : (networkReconcile env r).record = M := by rw [hpass]
  refine ⟨?_, ?_, ?_, ?_⟩
  · rw [hpass]
    exact nodrift_trace_no_mutation _ _ _ _ _
  · rw [hrec1]; exact hfix
  · rw [hrec1, hpass2]
    exact nodrift_trace_no_mutation _ _ _ _ _
  · intro n
    rw [hrec1]
    induction n with
    | zero => rfl
    | succ k ih =>
      rw [Function.iterate_succ_apply', ih]
      exact hfix

/-- A witness for C5: the matching fixture reconciles with no provider
mutation and its post-pass record is a fixpoint of further passes. -/
theorem c5_idempotence_witness :
    (∀ c ∈ (networkReconcile (happyEnv (some netMatch)) recMatch).trace,
       c.isProviderMutation = false) ∧
    (networkReconcile (happyEnv (some netMatch))
        ((networkReconcile (happyEnv (some netMatch)) recMatch).record)).record =
      (networkReconcile (happyEnv (some netMatch)) recMatch).record :=
  ⟨(c5_idempotence (happyEnv (some netMatch)) recMatch netMatch rfl rfl rfl
      (Or.inr (by decide)) (fun _ => rfl) (fun _ => rfl)).1,
   (c5_idempotence (happyEnv (some netMatch)) recMatch netMatch rfl rfl rfl
      (Or.inr (by decide)) (fun _ => rfl) (fun _ => rfl)).2.1⟩

/-- C1 counterexample: on a record whose sync-policy annotation holds the
unknown string "frobnicate", a reconcile pass against a provider that finds
no network adds the finalizer, issues a create call, and sets no condition
with reason `InvalidSyncPolicy` — the opposite of the claimed read-only
fail-closed semantics. -/
theorem c1_counterexample :
    containsFinalizer (networkReconcile (happyEnv none) recUnknownPolicy).record = true ∧
    (networkReconcile (happyEnv none) recUnknownPolicy).trace.any Call.isCreate = true ∧
    (networkReconcile (happyEnv none) recUnknownPolicy).record.status.conditions.all
      (fun c => c.reason != "InvalidSyncPolicy") = true := by
  decide

/-- C2: on a live `manage` DNS-zone record the reconciler stops after the
finalizer step: it returns success having issued only store writes (no zone
lookup, no create), leaves the `Available` condition at `Progressing`,
and never advances `observedGeneration` to the record's generation. -/
theorem c2_dns_live_path_stub :
    (dnsZoneReconcile dnsHappyEnv dnsRecManage).err = none ∧
    (dnsZoneReconcile dnsHappyEnv dnsRecManage).trace.all DnsCall.isStoreWrite = true ∧
    (dnsZoneReconcile dnsHappyEnv dnsRecManage).record.finalizers = [finalizerName] ∧
    ((findCondition (dnsZoneReconcile dnsHappyEnv dnsRecManage).record.status.conditions
        "Available").map Condition.reason) = some "Progressing" ∧
    (dnsZoneReconcile dnsHappyEnv dnsRecManage).record.status.observedGeneration = 0 ∧
    dnsRecManage.generation = 5 ∧
    (dnsZoneReconcile dnsHappyEnv dnsRecManage).record.status.zoneId = 0 := by
  decide

/-- C3 counterexample: with both label drift and CIDR drift present against
the observed network, a single pass issues two provider update calls —
labels first, then the CIDR change — not at most one. -/
theorem c3_counterexample :
    ((networkReconcile (happyEnv (some netBothDrift)) recDrift).trace.filter
        Call.isProviderUpdate) =
      [Call.updateNetworkLabels 42 (some [("b", "2")]),
       Call.updateNetworkCidr 42 "10.0.0.0/8"] := by
  decide

/-- C4 counterexample: the desired string `10.0.0.1/8` and the observed
canonical range `10.0.0.0/8` denote the same canonical network value, yet
the differ reports structural drift and the pass issues a CIDR update
call, because comparison is by string equality. -/
theorem c4_counterexample :
    canonicalCIDR recCanon.spec.ipRange = some "10.0.0.0/8" ∧
    canonicalCIDR netCanon.ipRange = some "10.0.0.0/8" ∧
    recCanon.spec.ipRange ≠ netCanon.ipRange ∧
    needsCidrUpdate recCanon.spec netCanon = true ∧
    (networkReconcile (happyEnv (some netCanon)) recCanon).trace.contains
      (Call.updateNetworkCidr 9 "10.0.0.1/8") = true := by
  decide

/-- C7 counterexample: with desired labels the empty (non-nil) map and
observed labels `{a: 1}`, the pass issues a labels update call with the
empty payload — driving the external labels toward empty. -/
theorem c7_counterexample :
    recEmptyLabels.spec.labels = some [] ∧
    (networkReconcile (happyEnv (some netLabelled)) recEmptyLabels).trace.contains
      (Call.updateNetworkLabels 5 (some [])) = true := by
  decide

end Hcrm
